import Mathlib

/-!
# Verification of `folly/io/Compression.cpp`

A shallow embedding of the compression codec layer in
`folly/io/Compression.cpp` (four codec variants — no-op, LZ4, Snappy,
Zlib — behind a common `Codec` contract, plus the codec registry), and
proofs of the spec's testable properties about it.

Modelling conventions:

* An `IOBuf` chain (`ByteChain`) is a list of segments, each a list of
  byte values.  `IOBuf::empty()` is "total chain length is zero";
  `computeChainDataLength` is the total length; `coalesce` is `join`.
* `uint64_t` lengths are `Nat`; where the `uint64_t` domain matters a
  `< 2^64` hypothesis is stated explicitly.  C++ `int` levels are `Int`.
* C++ exceptions become `Except Err`; `std::invalid_argument` and
  `std::runtime_error` map to `Err.invalidArgument` / `Err.runtimeError`
  with the exact message built at the throw site.  A failed glog
  `CHECK` (process abort) is `Err.fatal`.
* The external compression primitives (lz4.h, snappy.h, zlib.h) are not
  part of this repository; each codec's embedding is parameterised over
  them, and theorems that depend on their behaviour either quantify over
  the primitives or assume their documented call contracts.
-/

/-- One contiguous segment of an IOBuf chain: a list of byte values. -/
abbrev Segment : Type := List Nat

/-- An IOBuf chain: an ordered list of contiguous segments. -/
abbrev ByteChain : Type := List Segment

/-- `IOBuf::computeChainDataLength()`: total number of bytes in the chain. -/
def chainLength (d : ByteChain) : Nat := (d.map List.length).sum

/-- The logical byte content of a chain (what `coalesce` materialises). -/
def chainJoin (d : ByteChain) : List Nat := d.flatten

deriving instance DecidableEq for Except

/-- Errors surfaced by the codec layer.  `invalidArgument` is
`std::invalid_argument`, `runtimeError` is `std::runtime_error`, and
`fatal` models a failed glog `CHECK` (which aborts the process). -/
inductive Err where
  | invalidArgument (msg : String)
  | runtimeError (msg : String)
  | fatal (msg : String)
deriving DecidableEq, Repr

/-- Modelled from the spec: `UNKNOWN_UNCOMPRESSED_LENGTH` is declared in
the missing header `folly/io/Compression.h`.  The spec reserves the
maximum representable length for the Unknown sentinel ("base default is
maximum representable length minus one (reserved for the Unknown
sentinel)"), so the sentinel is `uint64_t(-1) = 2^64 - 1`. -/
def UNKNOWN_UNCOMPRESSED_LENGTH : Nat := 2 ^ 64 - 1

/-- Modelled from the spec: the symbolic compression-level hints from the
missing header `folly/io/Compression.h`.  The spec describes them as "a
small closed set of symbolic hints {Fastest, Default, Best}" disjoint
from the variants' numeric level ranges; they are encoded as the
negative integers -1, -2, -3. -/
def COMPRESSION_LEVEL_FASTEST : Int := -1

/-- Modelled from the spec: see `COMPRESSION_LEVEL_FASTEST`. -/
def COMPRESSION_LEVEL_DEFAULT : Int := -2

/-- Modelled from the spec: see `COMPRESSION_LEVEL_FASTEST`. -/
def COMPRESSION_LEVEL_BEST : Int := -3

/-- zlib's `Z_DEFAULT_COMPRESSION` (from zlib.h, an external library). -/
def Z_DEFAULT_COMPRESSION : Int := -1

/-- `Codec::doMaxUncompressedLength()`: the base-class default ceiling,
`std::numeric_limits<uint64_t>::max() - 1` (Compression.cpp line 77). -/
def baseMaxUncompressedLength : Nat := 2 ^ 64 - 2

/-- `LZ4Codec::doMaxUncompressedLength()`: `1.8 * (uint64_t(1) << 30)`
(Compression.cpp line 183).  The C++ expression multiplies the double
nearest 1.8 (namely `8106479329266893 * 2^-52`) by `2^30` and truncates
back to `uint64_t`: `8106479329266893 / 2^22 = 1932735283` (the exact
quotient is `1932735283.2000003...`). -/
def lz4MaxUncompressedLength : Nat := 1932735283

/-- `SnappyCodec::doMaxUncompressedLength()`:
`std::numeric_limits<uint32_t>::max()` (Compression.cpp line 313). -/
def snappyMaxUncompressedLength : Nat := 2 ^ 32 - 1

/-- `Codec::compress` (Compression.cpp lines 35-37): empty input
short-circuits to an empty chain, otherwise the variant's `doCompress`
runs. -/
def codecCompress (doCompress : ByteChain → Except Err ByteChain)
    (data : ByteChain) : Except Err ByteChain :=
  if chainLength data ≠ 0 then doCompress data else .ok []

/-- `Codec::uncompress` (Compression.cpp lines 39-58): validates the
declared length (Unknown requires `needsUncompressedLength` false; a
known length must not exceed the variant's ceiling), short-circuits
empty input (declared length must then be Unknown or 0), and otherwise
delegates to the variant's `doUncompress`. -/
def codecUncompress (needsUncompressedLength : Bool) (maxUncompressedLength : Nat)
    (doUncompress : ByteChain → Nat → Except Err ByteChain)
    (data : ByteChain) (uncompressedLength : Nat) : Except Err ByteChain :=
  if uncompressedLength = UNKNOWN_UNCOMPRESSED_LENGTH then
    if needsUncompressedLength then
      .error (.invalidArgument "Codec: uncompressed length required")
    else
      codecUncompressAfterChecks doUncompress data uncompressedLength
  else if uncompressedLength > maxUncompressedLength then
    .error (.runtimeError "Codec: uncompressed length too large")
  else
    codecUncompressAfterChecks doUncompress data uncompressedLength
where
  /-- The part of `Codec::uncompress` after the length validation:
  the empty-input short circuit and the delegation to `doUncompress`. -/
  codecUncompressAfterChecks (doUncompress : ByteChain → Nat → Except Err ByteChain)
      (data : ByteChain) (uncompressedLength : Nat) : Except Err ByteChain :=
    if chainLength data = 0 then
      if uncompressedLength ≠ UNKNOWN_UNCOMPRESSED_LENGTH ∧ uncompressedLength ≠ 0 then
        .error (.runtimeError "Codec: invalid uncompressed length")
      else
        .ok []
    else
      doUncompress data uncompressedLength

/-- The codec descriptors constructed by the registry: each variant with
the state its constructor resolves (`LZ4Codec::highCompression_`,
`ZlibCodec::level_`). -/
inductive Codec where
  | noCompression
  | lz4 (highCompression : Bool)
  | snappy
  | zlib (level : Int)
deriving DecidableEq, Repr

/-- `Codec::type()` as the `size_t` value of the `CodecType` tag (the
registry array order in Compression.cpp lines 604-610: NO_COMPRESSION,
LZ4, SNAPPY, ZLIB). -/
def Codec.type : Codec → Nat
  | .noCompression => 0
  | .lz4 _ => 1
  | .snappy => 2
  | .zlib _ => 3

/-- `NoCompressionCodec::NoCompressionCodec` (lines 102-113): the three
symbolic hints normalise to level 0; any other nonzero level is
rejected with `std::invalid_argument`. -/
def NoCompressionCodec.create (level : Int) : Except Err Codec :=
  let level :=
    if level = COMPRESSION_LEVEL_DEFAULT ∨ level = COMPRESSION_LEVEL_FASTEST ∨
        level = COMPRESSION_LEVEL_BEST then 0 else level
  if level ≠ 0 then
    .error (.invalidArgument ("NoCompressionCodec: invalid level " ++ toString level))
  else
    .ok .noCompression

/-- `NoCompressionCodec::doUncompress` (lines 124-133): a known declared
length must equal the chain's total length, else `std::runtime_error`;
otherwise the input is cloned. -/
def nocompDoUncompress (data : ByteChain) (uncompressedLength : Nat) :
    Except Err ByteChain :=
  if uncompressedLength ≠ UNKNOWN_UNCOMPRESSED_LENGTH ∧
      chainLength data ≠ uncompressedLength then
    .error (.runtimeError "NoCompressionCodec: invalid uncompressed length")
  else
    .ok data

/-- `NoCompressionCodec::doCompress` (lines 119-122): `data->clone()`. -/
def nocompDoCompress (data : ByteChain) : Except Err ByteChain := .ok data

/-- The no-op variant's full `compress` entry point. -/
def nocompCompress (data : ByteChain) : Except Err ByteChain :=
  codecCompress nocompDoCompress data

/-- The no-op variant's full `uncompress` entry point
(`doNeedsUncompressedLength` is the base default `false`, the ceiling is
the base default). -/
def nocompUncompress (data : ByteChain) (uncompressedLength : Nat) :
    Except Err ByteChain :=
  codecUncompress false baseMaxUncompressedLength nocompDoUncompress
    data uncompressedLength

/-- The external LZ4 primitives (lz4.h / lz4hc.h), not part of this
repository.  `lz4Compress`/`lz4CompressHC` return the compressed bytes
written into the output buffer; `lz4CompressBound` is
`LZ4_compressBound`; `lz4Uncompress src osize` is `LZ4_uncompress`,
returning the number of input bytes it reports consumed (a C++ `int`,
negative on failure) together with the `osize` output bytes written. -/
structure LZ4Ext where
  lz4Compress : List Nat → List Nat
  lz4CompressHC : List Nat → List Nat
  lz4CompressBound : Nat → Nat
  lz4Uncompress : List Nat → Nat → Int × List Nat

/-- `LZ4Codec::LZ4Codec` (lines 159-174): Fastest/Default map to level 1,
Best to level 2; anything outside [1,2] is rejected;
`highCompression_ = (level > 1)`. -/
def LZ4Codec.create (level : Int) : Except Err Codec :=
  let level :=
    if level = COMPRESSION_LEVEL_FASTEST ∨ level = COMPRESSION_LEVEL_DEFAULT then
      (1 : Int)
    else if level = COMPRESSION_LEVEL_BEST then 2
    else level
  if level < 1 ∨ level > 2 then
    .error (.invalidArgument ("LZ4Codec: invalid level: " ++ toString level))
  else
    .ok (.lz4 (level > 1))

/-- The body of `LZ4Codec::doCompress` after the primitive to call has
been selected (lines 190-216): coalesce the chain, run the single-shot
primitive into a buffer of capacity `LZ4_compressBound`, and check the
reported size against the capacity (`CHECK_LE(n, out->capacity())`). -/
def lz4DoCompressWith (prim : List Nat → List Nat) (bound : Nat → Nat)
    (data : ByteChain) : Except Err ByteChain :=
  let bytes := chainJoin data
  let out := prim bytes
  if out.length ≤ bound bytes.length then
    .ok [out]
  else
    .error (.fatal "LZ4Codec::doCompress: CHECK_LE(n, out->capacity()) failed")

/-- `LZ4Codec::doCompress` (lines 190-216): `highCompression_` selects
`LZ4_compress`, otherwise `LZ4_compressHC` is called. -/
def lz4DoCompress (ext : LZ4Ext) (highCompression : Bool)
    (data : ByteChain) : Except Err ByteChain :=
  if highCompression then
    lz4DoCompressWith ext.lz4Compress ext.lz4CompressBound data
  else
    lz4DoCompressWith ext.lz4CompressHC ext.lz4CompressBound data

/-- `LZ4Codec::doUncompress` (lines 218-239): coalesce, run
`LZ4_uncompress` into a buffer of the declared length, and fail with
`std::runtime_error` when the reported consumed size differs from the
input length. -/
def lz4DoUncompress (ext : LZ4Ext) (data : ByteChain)
    (uncompressedLength : Nat) : Except Err ByteChain :=
  let bytes := chainJoin data
  let r := ext.lz4Uncompress bytes uncompressedLength
  if r.1 ≠ (bytes.length : Int) then
    .error (.runtimeError ("LZ4 decompression returned invalid value " ++ toString r.1))
  else
    .ok [r.2]

/-- The LZ4 variant's full `compress` entry point. -/
def lz4Compress (ext : LZ4Ext) (highCompression : Bool)
    (data : ByteChain) : Except Err ByteChain :=
  codecCompress (lz4DoCompress ext highCompression) data

/-- The LZ4 variant's full `uncompress` entry point
(`doNeedsUncompressedLength` is overridden to `true`, lines 176-178). -/
def lz4Uncompress (ext : LZ4Ext) (data : ByteChain)
    (uncompressedLength : Nat) : Except Err ByteChain :=
  codecUncompress true lz4MaxUncompressedLength (lz4DoUncompress ext)
    data uncompressedLength

/-- A trivial concrete instance of the LZ4 primitives that satisfies
their documented contracts on the inputs the proofs use (identity
"compression"). -/
def lz4TrivExt : LZ4Ext where
  lz4Compress := id
  lz4CompressHC := id
  lz4CompressBound := id
  lz4Uncompress := fun src _ => ((src.length : Int), src)

/-- `SnappyCodec::SnappyCodec` (lines 298-309): the three symbolic hints
normalise to level 1; any other level is rejected. -/
def SnappyCodec.create (level : Int) : Except Err Codec :=
  let level :=
    if level = COMPRESSION_LEVEL_FASTEST ∨ level = COMPRESSION_LEVEL_DEFAULT ∨
        level = COMPRESSION_LEVEL_BEST then 1 else level
  if level ≠ 1 then
    .error (.invalidArgument ("SnappyCodec: invalid level: " ++ toString level))
  else
    .ok .snappy

/-- `IOBufSnappySource` (lines 248-278): a pull source over an IOBuf
chain, carrying the available-byte count and the not-yet-consumed
bytes behind the cursor. -/
structure SnappySource where
  available : Nat
  rest : List Nat
deriving DecidableEq, Repr

/-- `IOBufSnappySource::IOBufSnappySource(data)` (lines 259-262): a
fresh source positioned at the start of the chain, with
`available_ = data->computeChainDataLength()`. -/
def mkSnappySource (data : ByteChain) : SnappySource :=
  ⟨chainLength data, chainJoin data⟩

/-- The external Snappy primitives (snappy.h), not part of this
repository.  `compressPrim` is `snappy::Compress` driven by a source
(returning the bytes written to the sink); `maxCompressedLength` is
`snappy::MaxCompressedLength`; `getUncompressedLength` is
`snappy::GetUncompressedLength` (reads the embedded length header from
a source, `none` on failure); `rawUncompress src cap` is
`snappy::RawUncompress` into a buffer of capacity `cap` (`none` on
failure, otherwise the buffer contents). -/
structure SnappyExt where
  compressPrim : SnappySource → List Nat
  maxCompressedLength : Nat → Nat
  getUncompressedLength : SnappySource → Option Nat
  rawUncompress : SnappySource → Nat → Option (List Nat)

/-- `SnappyCodec::doCompress` (lines 320-333): wrap the chain in a
source, compress into a buffer of capacity `MaxCompressedLength`, and
check the written size against the capacity (`CHECK_LE`). -/
def snappyDoCompress (ext : SnappyExt) (data : ByteChain) : Except Err ByteChain :=
  let source := mkSnappySource data
  let out := ext.compressPrim source
  if out.length ≤ ext.maxCompressedLength source.available then
    .ok [out]
  else
    .error (.fatal "SnappyCodec::doCompress: CHECK_LE(n, out->capacity()) failed")

/-- `SnappyCodec::doUncompress` (lines 335-362): a first fresh source is
used only to extract the embedded uncompressed length; a supplied known
length must match it exactly; then a second fresh source over the same
chain feeds `RawUncompress` into a buffer of the embedded length. -/
def snappyDoUncompress (ext : SnappyExt) (data : ByteChain)
    (uncompressedLength : Nat) : Except Err ByteChain :=
  match ext.getUncompressedLength (mkSnappySource data) with
  | none => .error (.runtimeError "snappy::GetUncompressedLength failed")
  | some actualUncompressedLength =>
    if uncompressedLength ≠ UNKNOWN_UNCOMPRESSED_LENGTH ∧
        uncompressedLength ≠ actualUncompressedLength then
      .error (.runtimeError "snappy: invalid uncompressed length")
    else
      match ext.rawUncompress (mkSnappySource data) actualUncompressedLength with
      | none => .error (.runtimeError "snappy::RawUncompress failed")
      | some out => .ok [out]

/-- The Snappy variant's full `compress` entry point. -/
def snappyCompress (ext : SnappyExt) (data : ByteChain) : Except Err ByteChain :=
  codecCompress (snappyDoCompress ext) data

/-- The Snappy variant's full `uncompress` entry point
(`needsUncompressedLength` is the base default `false`; the ceiling is
the uint32 maximum). -/
def snappyUncompress (ext : SnappyExt) (data : ByteChain)
    (uncompressedLength : Nat) : Except Err ByteChain :=
  codecUncompress false snappyMaxUncompressedLength (snappyDoUncompress ext)
    data uncompressedLength

/-- `ZlibCodec::ZlibCodec` (lines 389-406): Fastest maps to 1, Default to
`Z_DEFAULT_COMPRESSION`, Best to 9; a numeric level must be
`Z_DEFAULT_COMPRESSION` or in [0, 9]. -/
def ZlibCodec.create (level : Int) : Except Err Codec :=
  let level :=
    if level = COMPRESSION_LEVEL_FASTEST then (1 : Int)
    else if level = COMPRESSION_LEVEL_DEFAULT then Z_DEFAULT_COMPRESSION
    else if level = COMPRESSION_LEVEL_BEST then 9
    else level
  if level ≠ Z_DEFAULT_COMPRESSION ∧ (level < 0 ∨ level > 9) then
    .error (.invalidArgument ("ZlibCodec: invalid level: " ++ toString level))
  else
    .ok (.zlib level)

/-- zlib return codes distinguished by `ZlibCodec` (zlib.h). -/
inductive ZRC where
  | zOk
  | zStreamEnd
  | zNeedDict
  | zDataError
  | zMemError
  | zBufError
  | zOther (code : Int)
deriving DecidableEq, Repr

/-- The numeric value of a zlib return code (zlib.h). -/
def ZRC.code : ZRC → Int
  | .zOk => 0
  | .zStreamEnd => 1
  | .zNeedDict => 2
  | .zDataError => -3
  | .zMemError => -4
  | .zBufError => -5
  | .zOther c => c

/-- The flush modes `ZlibCodec` passes to `deflate`. -/
inductive ZFlush where
  | zNoFlush
  | zFinish
deriving DecidableEq, Repr

/-- The observable result of one `inflate`/`deflate` call: the updated
internal state, the number of input bytes consumed, the output bytes
written (at most the available output capacity), the return code, and
the diagnostic `stream.msg`. -/
structure ZStepOut (S : Type) where
  state : S
  consumed : Nat
  produced : List Nat
  rc : ZRC
  msg : String

/-- The external inflate side of zlib, not part of this repository:
`initRC`/`initMsg` model `inflateInit`, `step st availIn availOut`
models one `inflate(stream, Z_NO_FLUSH)` call. -/
structure ZlibInflatePrim (S : Type) where
  initRC : Int
  initMsg : String
  initState : S
  step : S → List Nat → Nat → ZStepOut S

/-- The external deflate side of zlib, not part of this repository:
`initRC`/`initMsg` model `deflateInit`, `deflateBound` is
`deflateBound`, `step st flush availIn availOut` models one
`deflate(stream, flush)` call. -/
structure ZlibDeflatePrim (S : Type) where
  initRC : Int
  initMsg : String
  initState : S
  deflateBound : Nat → Nat
  step : S → ZFlush → List Nat → Nat → ZStepOut S

/-- The growing output chain of `ZlibCodec` together with the z_stream
output bookkeeping: the chain's segments (each segment holding the
bytes actually written into it; the final segment's unused tail
capacity is what `trimEnd` discards at the end), the remaining capacity
`avail_out` of the active (last) segment, and `total_out`. -/
structure ZOut where
  segs : List (List Nat)
  availOut : Nat
  totalOut : Nat
deriving DecidableEq, Repr

/-- Append freshly written bytes to the active (last) segment. -/
def appendToLast : List (List Nat) → List Nat → List (List Nat)
  | [], bs => [bs]
  | s :: rest, bs =>
    match rest with
    | [] => [s ++ bs]
    | _ => s :: appendToLast rest bs

/-- `ZlibCodec::addOutputBuffer` (lines 412-423): requires
`CHECK_EQ(stream->avail_out, 0)`, then chains a fresh buffer of the
given capacity and makes it the active output segment. -/
def ZOut.addOutputBuffer (o : ZOut) (length : Nat) : Except Err ZOut :=
  if o.availOut ≠ 0 then
    .error (.fatal "ZlibCodec::addOutputBuffer: CHECK_EQ(stream->avail_out, 0) failed")
  else
    .ok ⟨o.segs ++ [[]], length, o.totalOut⟩

/-- Record bytes written by `inflate`/`deflate` into the active segment,
updating `avail_out` and `total_out` as zlib does. -/
def ZOut.write (o : ZOut) (bs : List Nat) : ZOut :=
  ⟨appendToLast o.segs bs, o.availOut - bs.length, o.totalOut + bs.length⟩

/-- `ZlibCodec::doCompress`'s "Max 64MiB in one go" constant (line 483/556). -/
def maxSingleStepLength : Nat := 64 * 2 ^ 20

/-- `ZlibCodec`'s default output chunk size, 4MiB (line 484/557). -/
def defaultBufferLength : Nat := 4 * 2 ^ 20

/-- `ZlibCodec::doInflate` (lines 425-450): grow the output chain when
`avail_out` is exhausted, call `inflate`, and map the return code:
`Z_OK` continues, `Z_STREAM_END` reports completion, the four
recoverable error codes raise `std::runtime_error` with the code and
`stream.msg`, and anything else is `CHECK(false)`.  Returns the updated
primitive state, the remaining input, the output, and the
stream-complete flag. -/
def zlibDoInflate {S : Type} (prim : ZlibInflatePrim S) (st : S)
    (availIn : List Nat) (o : ZOut) (bufferLength : Nat) :
    Except Err (S × List Nat × ZOut × Bool) :=
  match (if o.availOut = 0 then o.addOutputBuffer bufferLength else .ok o) with
  | .error e => .error e
  | .ok o1 =>
    let r := prim.step st availIn o1.availOut
    let o2 := o1.write r.produced
    let availIn' := availIn.drop r.consumed
    match r.rc with
    | .zOk => .ok (r.state, availIn', o2, false)
    | .zStreamEnd => .ok (r.state, availIn', o2, true)
    | .zBufError =>
      .error (.runtimeError ("ZlibCodec: inflate error: " ++ toString ZRC.zBufError.code ++ ": " ++ r.msg))
    | .zNeedDict =>
      .error (.runtimeError ("ZlibCodec: inflate error: " ++ toString ZRC.zNeedDict.code ++ ": " ++ r.msg))
    | .zDataError =>
      .error (.runtimeError ("ZlibCodec: inflate error: " ++ toString ZRC.zDataError.code ++ ": " ++ r.msg))
    | .zMemError =>
      .error (.runtimeError ("ZlibCodec: inflate error: " ++ toString ZRC.zMemError.code ++ ": " ++ r.msg))
    | .zOther c =>
      .error (.fatal ("ZlibCodec::doInflate: CHECK(false) " ++ toString c ++ ": " ++ r.msg))

/-- The inner `while (stream.avail_in != 0)` loop of
`ZlibCodec::doUncompress` (lines 575-582): once the stream has
completed, any remaining input byte is junk; otherwise keep calling
`doInflate`.  `fuel` bounds the number of `inflate` calls (the C++ loop
is unbounded; exhausted fuel is reported as a fatal model error). -/
def zlibInflateAvailLoop {S : Type} (prim : ZlibInflatePrim S) (bufferLength : Nat) :
    Nat → S → Bool → List Nat → ZOut → Except Err (S × Bool × ZOut)
  | fuel, st, streamEnd, availIn, o =>
    if availIn.isEmpty then .ok (st, streamEnd, o)
    else if streamEnd then .error (.runtimeError "ZlibCodec: junk after end of data")
    else
      match fuel with
      | 0 => .error (.fatal "model: inflate loop out of fuel")
      | fuel' + 1 =>
        match zlibDoInflate prim st availIn o bufferLength with
        | .error e => .error e
        | .ok (st', availIn', o', se') =>
          zlibInflateAvailLoop prim bufferLength fuel' st' se' availIn' o'

/-- The outer `for (auto& range : *data)` loop of
`ZlibCodec::doUncompress` (lines 567-583): empty segments are skipped,
each non-empty segment is fed through the inner avail_in loop. -/
def zlibInflateSegs {S : Type} (prim : ZlibInflatePrim S) (bufferLength fuel : Nat) :
    List Segment → S → Bool → ZOut → Except Err (S × Bool × ZOut)
  | [], st, streamEnd, o => .ok (st, streamEnd, o)
  | seg :: rest, st, streamEnd, o =>
    if seg.isEmpty then zlibInflateSegs prim bufferLength fuel rest st streamEnd o
    else
      match zlibInflateAvailLoop prim bufferLength fuel st streamEnd seg o with
      | .error e => .error e
      | .ok (st', se', o') => zlibInflateSegs prim bufferLength fuel rest st' se' o'

/-- The `while (!streamEnd)` drain loop of `ZlibCodec::doUncompress`
(lines 585-587): keep inflating with no new input until the stream
completes. -/
def zlibInflateDrain {S : Type} (prim : ZlibInflatePrim S) (bufferLength : Nat) :
    Nat → S → Bool → ZOut → Except Err (S × ZOut)
  | fuel, st, streamEnd, o =>
    if streamEnd then .ok (st, o)
    else
      match fuel with
      | 0 => .error (.fatal "model: inflate drain out of fuel")
      | fuel' + 1 =>
        match zlibDoInflate prim st [] o bufferLength with
        | .error e => .error e
        | .ok (st', _, o', se') => zlibInflateDrain prim bufferLength fuel' st' se' o'

/-- `ZlibCodec::doUncompress` (lines 528-600): `inflateInit`, initial
output buffer sized by the declared length when known and below the
single-step ceiling, the segment loop, the drain loop, the trailing
trim (implicit here: segments hold only written bytes), and the final
declared-length check against `stream.total_out`. -/
def zlibDoUncompress {S : Type} (prim : ZlibInflatePrim S) (fuel : Nat)
    (data : ByteChain) (uncompressedLength : Nat) : Except Err ByteChain :=
  if prim.initRC ≠ 0 then
    .error (.runtimeError ("ZlibCodec: inflateInit error: " ++ toString prim.initRC ++ ": " ++ prim.initMsg))
  else
    match ZOut.addOutputBuffer ⟨[], 0, 0⟩
        (if uncompressedLength ≠ UNKNOWN_UNCOMPRESSED_LENGTH ∧
            uncompressedLength ≤ maxSingleStepLength then
          uncompressedLength
        else defaultBufferLength) with
    | .error e => .error e
    | .ok o =>
      match zlibInflateSegs prim defaultBufferLength fuel data prim.initState false o with
      | .error e => .error e
      | .ok (st, streamEnd, o1) =>
        match zlibInflateDrain prim defaultBufferLength fuel st streamEnd o1 with
        | .error e => .error e
        | .ok (_, o2) =>
          if uncompressedLength ≠ UNKNOWN_UNCOMPRESSED_LENGTH ∧
              uncompressedLength ≠ o2.totalOut then
            .error (.runtimeError "ZlibCodec: invalid uncompressed length")
          else
            .ok o2.segs

/-- The inner `while (stream.avail_in != 0)` feed loop of
`ZlibCodec::doCompress` (lines 500-508): grow the output chain when
needed, `deflate(Z_NO_FLUSH)`, and `CHECK_EQ(rc, Z_OK)`. -/
def zlibDeflateFeedLoop {S : Type} (prim : ZlibDeflatePrim S) :
    Nat → S → List Nat → ZOut → Except Err (S × ZOut)
  | fuel, st, availIn, o =>
    if availIn.isEmpty then .ok (st, o)
    else
      match fuel with
      | 0 => .error (.fatal "model: deflate loop out of fuel")
      | fuel' + 1 =>
        match (if o.availOut = 0 then o.addOutputBuffer defaultBufferLength else .ok o) with
        | .error e => .error e
        | .ok o1 =>
          let r := prim.step st .zNoFlush availIn o1.availOut
          if r.rc ≠ .zOk then
            .error (.fatal ("ZlibCodec::doCompress: CHECK_EQ(rc, Z_OK) failed: " ++ r.msg))
          else
            zlibDeflateFeedLoop prim fuel' r.state (availIn.drop r.consumed) (o1.write r.produced)

/-- The outer `for (auto& range : *data)` loop of
`ZlibCodec::doCompress` (lines 492-509). -/
def zlibDeflateSegs {S : Type} (prim : ZlibDeflatePrim S) (fuel : Nat) :
    List Segment → S → ZOut → Except Err (S × ZOut)
  | [], st, o => .ok (st, o)
  | seg :: rest, st, o =>
    if seg.isEmpty then zlibDeflateSegs prim fuel rest st o
    else
      match zlibDeflateFeedLoop prim fuel st seg o with
      | .error e => .error e
      | .ok (st', o') => zlibDeflateSegs prim fuel rest st' o'

/-- The `do { ... } while (rc == Z_OK)` finish loop of
`ZlibCodec::doCompress` (lines 511-519): repeatedly `deflate(Z_FINISH)`,
growing the output chain, until `Z_STREAM_END`; any other return code
fails `CHECK_EQ(rc, Z_STREAM_END)`. -/
def zlibDeflateFinishLoop {S : Type} (prim : ZlibDeflatePrim S) :
    Nat → S → ZOut → Except Err (S × ZOut)
  | fuel, st, o =>
    match fuel with
    | 0 => .error (.fatal "model: deflate finish loop out of fuel")
    | fuel' + 1 =>
      match (if o.availOut = 0 then o.addOutputBuffer defaultBufferLength else .ok o) with
      | .error e => .error e
      | .ok o1 =>
        let r := prim.step st .zFinish [] o1.availOut
        match r.rc with
        | .zOk => zlibDeflateFinishLoop prim fuel' r.state (o1.write r.produced)
        | .zStreamEnd => .ok (r.state, o1.write r.produced)
        | _ =>
          .error (.fatal ("ZlibCodec::doCompress: CHECK_EQ(rc, Z_STREAM_END) failed: " ++ r.msg))

/-- `ZlibCodec::doCompress` (lines 453-526): `deflateInit`, initial
output buffer sized by `deflateBound` when below the single-step
ceiling, the per-segment feed loop, the finish loop, and the trailing
trim (implicit). -/
def zlibDoCompress {S : Type} (prim : ZlibDeflatePrim S) (fuel : Nat)
    (data : ByteChain) : Except Err ByteChain :=
  if prim.initRC ≠ 0 then
    .error (.runtimeError ("ZlibCodec: deflateInit error: " ++ toString prim.initRC ++ ": " ++ prim.initMsg))
  else
    let uncompressedLength := chainLength data
    let maxCompressedLength := prim.deflateBound uncompressedLength
    match ZOut.addOutputBuffer ⟨[], 0, 0⟩
        (if maxCompressedLength ≤ maxSingleStepLength then maxCompressedLength
         else defaultBufferLength) with
    | .error e => .error e
    | .ok o =>
      match zlibDeflateSegs prim fuel data prim.initState o with
      | .error e => .error e
      | .ok (st, o1) =>
        match zlibDeflateFinishLoop prim fuel st o1 with
        | .error e => .error e
        | .ok (_, o2) => .ok o2.segs

/-- The Zlib variant's full `compress` entry point. -/
def zlibCompress {S : Type} (prim : ZlibDeflatePrim S) (fuel : Nat)
    (data : ByteChain) : Except Err ByteChain :=
  codecCompress (zlibDoCompress prim fuel) data

/-- The Zlib variant's full `uncompress` entry point
(`needsUncompressedLength` is the base default `false`, the ceiling is
the base default). -/
def zlibUncompress {S : Type} (prim : ZlibInflatePrim S) (fuel : Nat)
    (data : ByteChain) (uncompressedLength : Nat) : Except Err ByteChain :=
  codecUncompress false baseMaxUncompressedLength (zlibDoUncompress prim fuel)
    data uncompressedLength

/-- The end-of-stream marker used by the concrete reference deflate
format: a value outside the byte range, so any byte stream can be
framed by appending it. -/
def zlibStreamEndMarker : Nat := 256

/-- Internal state of the concrete reference deflate model: the input
bytes buffered so far, and — once `Z_FINISH` processing has begun — the
still-unemitted tail of the encoded stream. -/
structure RefDeflState where
  buffered : List Nat
  pending : Option (List Nat)
deriving DecidableEq, Repr

/-- A concrete deflate model satisfying zlib's documented contract:
`Z_NO_FLUSH` consumes all offered input into the internal buffer
producing no output (always legal for deflate); `Z_FINISH` emits the
encoded stream (the buffered bytes framed by the end marker) as output
space permits, returning `Z_STREAM_END` exactly when it is fully
emitted.  `deflateBound` is input length + 1, an upper bound on the
encoded size. -/
def refDeflatePrim : ZlibDeflatePrim RefDeflState where
  initRC := 0
  initMsg := ""
  initState := ⟨[], none⟩
  deflateBound := fun n => n + 1
  step := fun st flush input availOut =>
    match flush with
    | .zNoFlush => ⟨⟨st.buffered ++ input, st.pending⟩, input.length, [], .zOk, ""⟩
    | .zFinish =>
      let pend := st.pending.getD (st.buffered ++ [zlibStreamEndMarker])
      let k := min availOut pend.length
      ⟨⟨st.buffered, some (pend.drop k)⟩, 0, pend.take k,
        if (pend.drop k).isEmpty then .zStreamEnd else .zOk, ""⟩

/-- One `inflate` call of the concrete reference model: emit input bytes
to the output until the end marker (consumed, `Z_STREAM_END`), output
space runs out (`Z_OK`), or input runs out (`Z_OK`).  Returns (consumed,
produced, rc). -/
def inflateScan : List Nat → Nat → Nat × List Nat × ZRC
  | [], _ => (0, [], .zOk)
  | b :: rest, availOut =>
    if b = zlibStreamEndMarker then (1, [], .zStreamEnd)
    else if availOut = 0 then (0, [], .zOk)
    else
      let r := inflateScan rest (availOut - 1)
      (r.1 + 1, b :: r.2.1, r.2.2)

/-- The concrete inflate model matching `refDeflatePrim`'s format. -/
def refInflatePrim : ZlibInflatePrim Unit where
  initRC := 0
  initMsg := ""
  initState := ()
  step := fun _ input availOut =>
    let r := inflateScan input availOut
    ⟨(), r.1, r.2.1, r.2.2, ""⟩

/-- `gCodecFactories` (lines 604-610): the registry array, indexed by
the `CodecType` value. -/
def gCodecFactories : List (Option (Int → Except Err Codec)) :=
  [some NoCompressionCodec.create, some LZ4Codec.create,
   some SnappyCodec.create, some ZlibCodec.create]

/-- `CodecType::NUM_CODEC_TYPES`. -/
def NUM_CODEC_TYPES : Nat := 4

/-- `getCodec` (lines 614-628): reject a type tag at or beyond
`NUM_CODEC_TYPES` or one with no registered factory, otherwise run the
factory on the level. -/
def getCodec (typeTag : Nat) (level : Int) : Except Err Codec :=
  if typeTag ≥ NUM_CODEC_TYPES then
    .error (.invalidArgument ("Compression type " ++ toString typeTag ++ " not supported"))
  else
    match gCodecFactories.getD typeTag none with
    | none =>
      .error (.invalidArgument ("Compression type " ++ toString typeTag ++ " not supported"))
    | some factory => factory level

/-- A trivial concrete instance of the Snappy primitives satisfying
their documented contracts (identity "compression": the embedded length
is the source's available count, raw decompression returns the source
bytes). -/
def snappyTrivExt : SnappyExt where
  compressPrim := fun s => s.rest
  maxCompressedLength := id
  getUncompressedLength := fun s => some s.available
  rawUncompress := fun s _ => some s.rest

/-- The 11-byte ASCII sequence "hello world" as a single-segment chain. -/
def helloWorldChain : ByteChain :=
  [[104, 101, 108, 108, 111, 32, 119, 111, 114, 108, 100]]

/-- Compose a compress result with an uncompress call and observe the
byte content of the final chain: the round-trip shape
`uncompress(compress(B), len)` of the spec. -/
def thenUncompress (comp : Except Err ByteChain)
    (unc : ByteChain → Nat → Except Err ByteChain) (uncompressedLength : Nat) :
    Except Err (List Nat) :=
  match comp with
  | .error e => .error e
  | .ok c => (unc c uncompressedLength).map chainJoin

/-- Unfolding equation for `zlibInflateAvailLoop` with non-empty input
after stream end: the junk check fires before any `inflate` call and
regardless of fuel. -/
theorem zlibInflateAvailLoop_junk {S : Type} (prim : ZlibInflatePrim S)
    (bufferLength fuel : Nat) (st : S) (availIn : List Nat) (o : ZOut)
    (h : availIn.isEmpty = false) :
    zlibInflateAvailLoop prim bufferLength fuel st true availIn o =
      .error (.runtimeError "ZlibCodec: junk after end of data") := by
  cases fuel <;> simp [zlibInflateAvailLoop, h]

/-- After stream end, the remaining-segments loop of
`ZlibCodec::doUncompress` returns its state unchanged when every
remaining segment is empty, and fails on the first non-empty one. -/
theorem zlibInflateSegs_streamEnd {S : Type} (prim : ZlibInflatePrim S)
    (bufferLength fuel : Nat) (segs : List Segment) (st : S) (o : ZOut) :
    zlibInflateSegs prim bufferLength fuel segs st true o =
      if segs.all List.isEmpty then .ok (st, true, o)
      else .error (.runtimeError "ZlibCodec: junk after end of data") := by
  induction segs with
  | nil => simp [zlibInflateSegs]
  | cons h t ih =>
    by_cases hh : h.isEmpty
    · simpa [zlibInflateSegs, hh] using ih
    · rw [zlibInflateSegs, if_neg (by simpa using hh),
        zlibInflateAvailLoop_junk prim bufferLength fuel st h o (by simpa using hh)]
      simp [List.all_cons, hh]

/-- C8: constructing the no-op variant with numeric level 3 fails with
InvalidArgument; constructing the zlib variant with numeric level 10
fails with InvalidArgument; the zlib variant at numeric level 9 and at
the Best symbolic hint both succeed and resolve to the same instance
(internal level 9), hence equivalent compress/uncompress behavior. -/
theorem c8_level_validation :
    NoCompressionCodec.create 3 =
      .error (.invalidArgument "NoCompressionCodec: invalid level 3") ∧
    ZlibCodec.create 10 =
      .error (.invalidArgument "ZlibCodec: invalid level: 10") ∧
    ZlibCodec.create 9 = .ok (.zlib 9) ∧
    ZlibCodec.create COMPRESSION_LEVEL_BEST = .ok (.zlib 9) ∧
    ZlibCodec.create 9 = ZlibCodec.create COMPRESSION_LEVEL_BEST := by
  decide

/-- C10: for every defined CodecType tag, `getCodec` at the Default hint
returns a codec reporting that tag; a tag at or beyond
`NUM_CODEC_TYPES`, or one whose factory slot is empty, fails with
InvalidArgument. -/
theorem c10_registry_consistency :
    (∀ t : Nat, t < NUM_CODEC_TYPES →
      (getCodec t COMPRESSION_LEVEL_DEFAULT).map Codec.type = .ok t) ∧
    (∀ (t : Nat) (level : Int), NUM_CODEC_TYPES ≤ t →
      getCodec t level =
        .error (.invalidArgument ("Compression type " ++ toString t ++ " not supported"))) ∧
    (∀ (t : Nat) (level : Int), gCodecFactories.getD t none = none →
      getCodec t level =
        .error (.invalidArgument ("Compression type " ++ toString t ++ " not supported"))) := by
  refine ⟨?_, ?_, ?_⟩
  · intro t ht
    simp only [NUM_CODEC_TYPES] at ht
    interval_cases t <;> decide
  · intro t level ht
    unfold getCodec
    rw [if_pos ht]
  · intro t level hf
    by_cases h4 : NUM_CODEC_TYPES ≤ t
    · unfold getCodec
      rw [if_pos h4]
    · unfold getCodec
      rw [if_neg h4, hf]

/-- Witness for C10 at concrete tags: tag 2 round-trips through the
registry, tag 7 is out of range, and tag 9 has no factory slot. -/
theorem c10_registry_consistency_witness :
    (getCodec 2 COMPRESSION_LEVEL_DEFAULT).map Codec.type = .ok 2 ∧
    getCodec 7 (-2) =
      .error (.invalidArgument "Compression type 7 not supported") ∧
    getCodec 9 1 =
      .error (.invalidArgument "Compression type 9 not supported") :=
  ⟨c10_registry_consistency.1 2 (by decide),
   c10_registry_consistency.2.1 7 (-2) (by decide),
   c10_registry_consistency.2.2 9 1 (by rfl)⟩

/-- C5: for the LZ4 variant, uncompress of any non-empty input with
declared length Unknown fails with InvalidArgument — for every choice
of the external primitives, i.e. before any of them is invoked. -/
theorem c5_lz4_unknown_length_rejected (ext : LZ4Ext) (data : ByteChain)
    (_hd : chainLength data ≠ 0) :
    lz4Uncompress ext data UNKNOWN_UNCOMPRESSED_LENGTH =
      .error (.invalidArgument "Codec: uncompressed length required") := by
  simp [lz4Uncompress, codecUncompress]

/-- Witness for C5 on a concrete non-empty input. -/
theorem c5_lz4_unknown_length_rejected_witness :
    lz4Uncompress lz4TrivExt [[1]] UNKNOWN_UNCOMPRESSED_LENGTH =
      .error (.invalidArgument "Codec: uncompressed length required") :=
  c5_lz4_unknown_length_rejected lz4TrivExt [[1]] (by decide)

/-- C3: the LZ4 constructor maps the Fastest and Default hints to
internal level 1 (`highCompression_ = false`) and the Best hint to
level 2 (`highCompression_ = true`); `doCompress` routes
`highCompression_ = false` to the `LZ4_compressHC` primitive and
`highCompression_ = true` to the `LZ4_compress` primitive — the reverse
of the hint names. -/
theorem c3_lz4_primitive_routing :
    LZ4Codec.create COMPRESSION_LEVEL_FASTEST = .ok (.lz4 false) ∧
    LZ4Codec.create COMPRESSION_LEVEL_DEFAULT = .ok (.lz4 false) ∧
    LZ4Codec.create COMPRESSION_LEVEL_BEST = .ok (.lz4 true) ∧
    (∀ (ext : LZ4Ext) (data : ByteChain),
      lz4DoCompress ext false data =
        lz4DoCompressWith ext.lz4CompressHC ext.lz4CompressBound data) ∧
    (∀ (ext : LZ4Ext) (data : ByteChain),
      lz4DoCompress ext true data =
        lz4DoCompressWith ext.lz4Compress ext.lz4CompressBound data) :=
  ⟨by decide, by decide, by decide, fun _ _ => rfl, fun _ _ => rfl⟩

/-- C9: for the no-op variant, uncompress of non-empty input with a
known (representable) declared length differing from the chain's total
length fails with InvalidLength, while a matching declared length or
the Unknown sentinel returns an exact duplicate; concretely, the
11-byte "hello world" compresses to itself, decompresses back with
declared length 11, and fails with InvalidLength at declared length 5. -/
theorem c9_nocomp_exactness (data : ByteChain) (ul : Nat)
    (hd : chainLength data ≠ 0) (hd64 : chainLength data < 2 ^ 64)
    (hul64 : ul < 2 ^ 64) (hulU : ul ≠ UNKNOWN_UNCOMPRESSED_LENGTH)
    (hne : ul ≠ chainLength data) :
    nocompUncompress data ul =
      .error (.runtimeError "NoCompressionCodec: invalid uncompressed length") ∧
    nocompUncompress data (chainLength data) = .ok data ∧
    nocompUncompress data UNKNOWN_UNCOMPRESSED_LENGTH = .ok data ∧
    nocompCompress helloWorldChain = .ok helloWorldChain ∧
    nocompUncompress helloWorldChain 11 = .ok helloWorldChain ∧
    nocompUncompress helloWorldChain 5 =
      .error (.runtimeError "NoCompressionCodec: invalid uncompressed length") := by
  refine ⟨?_, ?_, ?_, by decide, by decide, by decide⟩
  · have hle : ¬ ul > baseMaxUncompressedLength := by
      unfold baseMaxUncompressedLength
      unfold UNKNOWN_UNCOMPRESSED_LENGTH at hulU
      omega
    unfold nocompUncompress codecUncompress
    rw [if_neg hulU, if_neg hle]
    unfold codecUncompress.codecUncompressAfterChecks
    rw [if_neg hd]
    unfold nocompDoUncompress
    rw [if_pos ⟨hulU, fun h => hne h.symm⟩]
  · by_cases hU : chainLength data = UNKNOWN_UNCOMPRESSED_LENGTH
    · rw [hU]
      unfold nocompUncompress codecUncompress
      rw [if_pos rfl]
      simp only [Bool.false_eq_true, if_false]
      unfold codecUncompress.codecUncompressAfterChecks
      rw [if_neg hd]
      unfold nocompDoUncompress
      simp
    · have hle : ¬ chainLength data > baseMaxUncompressedLength := by
        unfold baseMaxUncompressedLength
        unfold UNKNOWN_UNCOMPRESSED_LENGTH at hU
        omega
      unfold nocompUncompress codecUncompress
      rw [if_neg hU, if_neg hle]
      unfold codecUncompress.codecUncompressAfterChecks
      rw [if_neg hd]
      unfold nocompDoUncompress
      simp
  · unfold nocompUncompress codecUncompress
    rw [if_pos rfl]
    simp only [Bool.false_eq_true, if_false]
    unfold codecUncompress.codecUncompressAfterChecks
    rw [if_neg hd]
    unfold nocompDoUncompress
    simp

/-- Witness for C9 at a concrete non-empty input and mismatching length. -/
theorem c9_nocomp_exactness_witness :
    nocompUncompress [[1, 2, 3]] 5 =
      .error (.runtimeError "NoCompressionCodec: invalid uncompressed length") ∧
    nocompUncompress [[1, 2, 3]] 3 = .ok [[1, 2, 3]] :=
  ⟨(c9_nocomp_exactness [[1, 2, 3]] 5 (by decide) (by decide) (by decide)
      (by decide) (by decide)).1,
   (c9_nocomp_exactness [[1, 2, 3]] 5 (by decide) (by decide) (by decide)
      (by decide) (by decide)).2.1⟩

/-- C1 counterexample: the claim asserts
`uncompress(data, maxUncompressedLength()+1)` fails with LengthTooLarge
for every variant, but for the no-op variant (base default ceiling)
that value is the Unknown sentinel and the call succeeds. -/
theorem c1_counterexample :
    nocompUncompress [[1]] (baseMaxUncompressedLength + 1) = .ok [[1]] ∧
    nocompUncompress [[1]] (baseMaxUncompressedLength + 1) ≠
      .error (.runtimeError "Codec: uncompressed length too large") := by
  decide

/-- C1 (amended): for the variants whose ceiling is below the base
default (LZ4 and Snappy), uncompress with declared length
`maxUncompressedLength()+1` fails with LengthTooLarge before any
primitive is invoked; for the variants using the base default ceiling
(no-op and zlib), `maxUncompressedLength()+1` equals the UnknownLength
sentinel, so the call is processed as an unknown-length uncompress and
in particular never fails with LengthTooLarge. -/
theorem c1_ceiling_amended :
    (∀ (ext : LZ4Ext) (data : ByteChain),
      lz4Uncompress ext data (lz4MaxUncompressedLength + 1) =
        .error (.runtimeError "Codec: uncompressed length too large")) ∧
    (∀ (ext : SnappyExt) (data : ByteChain),
      snappyUncompress ext data (snappyMaxUncompressedLength + 1) =
        .error (.runtimeError "Codec: uncompressed length too large")) ∧
    baseMaxUncompressedLength + 1 = UNKNOWN_UNCOMPRESSED_LENGTH ∧
    (∀ data : ByteChain,
      nocompUncompress data (baseMaxUncompressedLength + 1) =
        nocompUncompress data UNKNOWN_UNCOMPRESSED_LENGTH) ∧
    (∀ (S : Type) (prim : ZlibInflatePrim S) (fuel : Nat) (data : ByteChain),
      zlibUncompress prim fuel data (baseMaxUncompressedLength + 1) =
        zlibUncompress prim fuel data UNKNOWN_UNCOMPRESSED_LENGTH) ∧
    (∀ data : ByteChain,
      nocompUncompress data (baseMaxUncompressedLength + 1) ≠
        .error (.runtimeError "Codec: uncompressed length too large")) := by
  have hsent : baseMaxUncompressedLength + 1 = UNKNOWN_UNCOMPRESSED_LENGTH := by decide
  refine ⟨?_, ?_, hsent, ?_, ?_, ?_⟩
  · intro ext data
    unfold lz4Uncompress codecUncompress
    rw [if_neg (by decide), if_pos (by decide)]
  · intro ext data
    unfold snappyUncompress codecUncompress
    rw [if_neg (by decide), if_pos (by decide)]
  · intro data
    rw [hsent]
  · intro S prim fuel data
    rw [hsent]
  · intro data
    rw [hsent]
    unfold nocompUncompress codecUncompress
    rw [if_pos rfl]
    simp only [Bool.false_eq_true, if_false]
    unfold codecUncompress.codecUncompressAfterChecks
    by_cases hd : chainLength data = 0
    · simp [hd]
    · rw [if_neg hd]
      unfold nocompDoUncompress
      simp

/-- C2 counterexample: the claim asserts `uncompress(empty, Unknown)`
yields empty for every variant including LZ4, but the LZ4 variant
requires a known length and rejects the Unknown sentinel with
InvalidArgument before the empty-input short circuit is reached. -/
theorem c2_counterexample :
    lz4Uncompress lz4TrivExt [] UNKNOWN_UNCOMPRESSED_LENGTH =
      .error (.invalidArgument "Codec: uncompressed length required") ∧
    lz4Uncompress lz4TrivExt [] UNKNOWN_UNCOMPRESSED_LENGTH ≠ .ok [] := by
  decide

/-- C2 (amended): for every variant, compress of an empty input yields
an empty output and uncompress of an empty input with declared length 0
yields an empty output while declared length 5 fails with
InvalidLength; uncompress of an empty input with declared length
Unknown yields an empty output for the three variants that do not need
an uncompressed length, but fails with InvalidArgument for the
fast-block (LZ4) variant, whose `needsUncompressedLength()` is true. -/
theorem c2_empty_input_amended (data : ByteChain) (hd : chainLength data = 0) :
    nocompCompress data = .ok [] ∧
    (∀ (ext : LZ4Ext) (hc : Bool), lz4Compress ext hc data = .ok []) ∧
    (∀ ext : SnappyExt, snappyCompress ext data = .ok []) ∧
    (∀ (S : Type) (prim : ZlibDeflatePrim S) (fuel : Nat),
      zlibCompress prim fuel data = .ok []) ∧
    nocompUncompress data UNKNOWN_UNCOMPRESSED_LENGTH = .ok [] ∧
    (∀ ext : SnappyExt,
      snappyUncompress ext data UNKNOWN_UNCOMPRESSED_LENGTH = .ok []) ∧
    (∀ (S : Type) (prim : ZlibInflatePrim S) (fuel : Nat),
      zlibUncompress prim fuel data UNKNOWN_UNCOMPRESSED_LENGTH = .ok []) ∧
    (∀ ext : LZ4Ext,
      lz4Uncompress ext data UNKNOWN_UNCOMPRESSED_LENGTH =
        .error (.invalidArgument "Codec: uncompressed length required")) ∧
    nocompUncompress data 0 = .ok [] ∧
    (∀ ext : LZ4Ext, lz4Uncompress ext data 0 = .ok []) ∧
    (∀ ext : SnappyExt, snappyUncompress ext data 0 = .ok []) ∧
    (∀ (S : Type) (prim : ZlibInflatePrim S) (fuel : Nat),
      zlibUncompress prim fuel data 0 = .ok []) ∧
    nocompUncompress data 5 =
      .error (.runtimeError "Codec: invalid uncompressed length") ∧
    (∀ ext : LZ4Ext,
      lz4Uncompress ext data 5 =
        .error (.runtimeError "Codec: invalid uncompressed length")) ∧
    (∀ ext : SnappyExt,
      snappyUncompress ext data 5 =
        .error (.runtimeError "Codec: invalid uncompressed length")) ∧
    (∀ (S : Type) (prim : ZlibInflatePrim S) (fuel : Nat),
      zlibUncompress prim fuel data 5 =
        .error (.runtimeError "Codec: invalid uncompressed length")) := by
  refine ⟨?_, ?_, ?_, ?_, ?_, ?_, ?_, ?_, ?_, ?_, ?_, ?_, ?_, ?_, ?_, ?_⟩
  · simp [nocompCompress, codecCompress, hd]
  · intro ext hc
    simp [lz4Compress, codecCompress, hd]
  · intro ext
    simp [snappyCompress, codecCompress, hd]
  · intro S prim fuel
    simp [zlibCompress, codecCompress, hd]
  · simp [nocompUncompress, codecUncompress,
      codecUncompress.codecUncompressAfterChecks, hd]
  · intro ext
    simp [snappyUncompress, codecUncompress,
      codecUncompress.codecUncompressAfterChecks, hd]
  · intro S prim fuel
    simp [zlibUncompress, codecUncompress,
      codecUncompress.codecUncompressAfterChecks, hd]
  · intro ext
    simp [lz4Uncompress, codecUncompress]
  · simp [nocompUncompress, codecUncompress,
      codecUncompress.codecUncompressAfterChecks, hd]
  · intro ext
    simp [lz4Uncompress, codecUncompress,
      codecUncompress.codecUncompressAfterChecks, hd,
      UNKNOWN_UNCOMPRESSED_LENGTH, lz4MaxUncompressedLength]
  · intro ext
    simp [snappyUncompress, codecUncompress,
      codecUncompress.codecUncompressAfterChecks, hd,
      UNKNOWN_UNCOMPRESSED_LENGTH, snappyMaxUncompressedLength]
  · intro S prim fuel
    simp [zlibUncompress, codecUncompress,
      codecUncompress.codecUncompressAfterChecks, hd,
      UNKNOWN_UNCOMPRESSED_LENGTH, baseMaxUncompressedLength]
  · simp [nocompUncompress, codecUncompress,
      codecUncompress.codecUncompressAfterChecks, hd,
      UNKNOWN_UNCOMPRESSED_LENGTH, baseMaxUncompressedLength]
  · intro ext
    simp [lz4Uncompress, codecUncompress,
      codecUncompress.codecUncompressAfterChecks, hd,
      UNKNOWN_UNCOMPRESSED_LENGTH, lz4MaxUncompressedLength]
  · intro ext
    simp [snappyUncompress, codecUncompress,
      codecUncompress.codecUncompressAfterChecks, hd,
      UNKNOWN_UNCOMPRESSED_LENGTH, snappyMaxUncompressedLength]
  · intro S prim fuel
    simp [zlibUncompress, codecUncompress,
      codecUncompress.codecUncompressAfterChecks, hd,
      UNKNOWN_UNCOMPRESSED_LENGTH, baseMaxUncompressedLength]

/-- Witness for C2 (amended) at the literal empty chain. -/
theorem c2_empty_input_amended_witness :
    nocompCompress [] = .ok [] :=
  (c2_empty_input_amended [] (by decide)).1

/-- C6: for the Snappy variant, uncompress on non-empty input (with a
declared length that is Unknown or within the variant's ceiling)
reaches `doUncompress`, whose behavior is: extract the embedded length
from a first fresh source (RuntimeError on failure); a supplied known
length must equal it exactly (else RuntimeError); then raw-decompress
from a second fresh source over the same chain into a buffer of the
embedded length (RuntimeError if the primitive reports failure). -/
theorem c6_snappy_uncompress_pipeline (ext : SnappyExt) (data : ByteChain)
    (ul : Nat) (hd : chainLength data ≠ 0)
    (hul : ul = UNKNOWN_UNCOMPRESSED_LENGTH ∨ ul ≤ snappyMaxUncompressedLength) :
    snappyUncompress ext data ul = snappyDoUncompress ext data ul ∧
    snappyDoUncompress ext data ul =
      (match ext.getUncompressedLength (mkSnappySource data) with
       | none => .error (.runtimeError "snappy::GetUncompressedLength failed")
       | some actual =>
         if ul ≠ UNKNOWN_UNCOMPRESSED_LENGTH ∧ ul ≠ actual then
           .error (.runtimeError "snappy: invalid uncompressed length")
         else
           match ext.rawUncompress (mkSnappySource data) actual with
           | none => .error (.runtimeError "snappy::RawUncompress failed")
           | some out => .ok [out]) := by
  refine ⟨?_, rfl⟩
  unfold snappyUncompress codecUncompress
  by_cases hU : ul = UNKNOWN_UNCOMPRESSED_LENGTH
  · rw [if_pos hU]
    simp only [Bool.false_eq_true, if_false]
    unfold codecUncompress.codecUncompressAfterChecks
    rw [if_neg hd]
  · have hle : ¬ ul > snappyMaxUncompressedLength := by
      rcases hul with h | h
      · exact absurd h hU
      · omega
    rw [if_neg hU, if_neg hle]
    unfold codecUncompress.codecUncompressAfterChecks
    rw [if_neg hd]

/-- Witness for C6 on a concrete non-empty input with a matching known
length. -/
theorem c6_snappy_uncompress_pipeline_witness :
    snappyUncompress snappyTrivExt [[5, 6]] 2 =
      snappyDoUncompress snappyTrivExt [[5, 6]] 2 :=
  (c6_snappy_uncompress_pipeline snappyTrivExt [[5, 6]] 2 (by decide)
    (Or.inr (by decide))).1

/-- C7 counterexample: the code's junk error message ends in "junk after
end of data", not the claimed "junk after end of stream". -/
theorem c7_counterexample :
    zlibInflateSegs refInflatePrim defaultBufferLength 5 [[0]] () true
        ⟨[[]], 10, 0⟩ =
      .error (.runtimeError "ZlibCodec: junk after end of data") ∧
    zlibInflateSegs refInflatePrim defaultBufferLength 5 [[0]] () true
        ⟨[[]], 10, 0⟩ ≠
      .error (.runtimeError "ZlibCodec: junk after end of stream") ∧
    "ZlibCodec: junk after end of data" ≠ "junk after end of stream" := by
  refine ⟨?_, ?_, by decide⟩ <;> decide

/-- C7 (amended): in the zlib variant's decompression loop, once the
algorithm has signalled stream completion, the first remaining
non-empty input segment fails the call with RuntimeError
"ZlibCodec: junk after end of data" (the claim's quoted message said
"stream"); if every remaining segment is empty the loop finishes
normally with its state unchanged.  This holds for every inflate
primitive and every fuel, i.e. without invoking the algorithm again. -/
theorem c7_junk_after_stream_end {S : Type} (prim : ZlibInflatePrim S)
    (bufferLength fuel : Nat) (segs : List Segment) (st : S) (o : ZOut) :
    zlibInflateSegs prim bufferLength fuel segs st true o =
      if segs.all List.isEmpty then .ok (st, true, o)
      else .error (.runtimeError "ZlibCodec: junk after end of data") :=
  zlibInflateSegs_streamEnd prim bufferLength fuel segs st o

/-- `appendToLast` never yields an empty segment list. -/
theorem appendToLast_ne_nil (l : List (List Nat)) (bs : List Nat) :
    appendToLast l bs ≠ [] := by
  match l with
  | [] => simp [appendToLast]
  | [s] => simp [appendToLast]
  | s :: t :: r => simp [appendToLast]

/-- Writing bytes into the active segment appends them to the chain's
byte content. -/
theorem flatten_appendToLast (l : List (List Nat)) (bs : List Nat) :
    (appendToLast l bs).flatten = l.flatten ++ bs := by
  induction l with
  | nil => simp [appendToLast]
  | cons s t ih =>
    cases t with
    | nil => simp [appendToLast]
    | cons u r =>
      rw [show appendToLast (s :: u :: r) bs = s :: appendToLast (u :: r) bs from rfl]
      simp only [List.flatten_cons]
      rw [ih]
      simp [List.append_assoc]

/-- Appending no bytes to a non-degenerate segment list is the identity. -/
theorem appendToLast_nil (l : List (List Nat)) (h : l ≠ []) :
    appendToLast l [] = l := by
  induction l with
  | nil => exact absurd rfl h
  | cons s t ih =>
    cases t with
    | nil => simp [appendToLast]
    | cons u r =>
      rw [show appendToLast (s :: u :: r) [] = s :: appendToLast (u :: r) [] from rfl,
        ih (by simp)]

/-- Writing no bytes leaves a non-degenerate output unchanged. -/
theorem ZOut.write_nil (o : ZOut) (h : o.segs ≠ []) : o.write [] = o := by
  obtain ⟨segs, availOut, totalOut⟩ := o
  simp [ZOut.write, appendToLast_nil segs h]

/-- The byte content of the output after a `write`. -/
theorem ZOut.write_flatten (o : ZOut) (bs : List Nat) :
    (o.write bs).segs.flatten = o.segs.flatten ++ bs :=
  flatten_appendToLast o.segs bs

/-- `write` preserves non-degeneracy of the segment list. -/
theorem ZOut.write_segs_ne_nil (o : ZOut) (bs : List Nat) :
    (o.write bs).segs ≠ [] :=
  appendToLast_ne_nil o.segs bs

/-- `addOutputBuffer` succeeds exactly on exhausted output and only adds
an empty active segment: byte content and `total_out` are unchanged. -/
theorem ZOut.addOutputBuffer_ok (o : ZOut) (length : Nat) (h : o.availOut = 0) :
    o.addOutputBuffer length = .ok ⟨o.segs ++ [[]], length, o.totalOut⟩ := by
  simp [ZOut.addOutputBuffer, h]

/-- The total chain length is the length of the coalesced content. -/
theorem chainJoin_length (d : ByteChain) : (chainJoin d).length = chainLength d := by
  simp [chainJoin, chainLength]

/-- The deflate feed loop on exhausted input returns immediately. -/
theorem zlibDeflateFeedLoop_nil {S : Type} (prim : ZlibDeflatePrim S) (fuel : Nat)
    (st : S) (o : ZOut) :
    zlibDeflateFeedLoop prim fuel st [] o = .ok (st, o) := by
  rw [zlibDeflateFeedLoop.eq_def]
  simp

/-- Feeding one segment to the reference deflate model consumes it whole
into the internal buffer, leaving the output untouched. -/
theorem zlibDeflateFeedLoop_ref (fuel : Nat) (st : RefDeflState) (seg : List Nat)
    (o : ZOut) (ho : o.availOut ≠ 0) (hsegs : o.segs ≠ []) :
    zlibDeflateFeedLoop refDeflatePrim (fuel + 1) st seg o =
      .ok (⟨st.buffered ++ seg, st.pending⟩, o) := by
  by_cases hseg : seg.isEmpty
  · have hnil : seg = [] := by simpa [List.isEmpty_iff] using hseg
    subst hnil
    rw [zlibDeflateFeedLoop]
    cases st
    simp
  · rw [zlibDeflateFeedLoop]
    rw [if_neg (by simpa using hseg)]
    simp only [if_neg ho]
    simp only [refDeflatePrim]
    simp only [List.drop_length, ZOut.write_nil o hsegs, zlibDeflateFeedLoop_nil]
    cases st
    simp

/-- Feeding a whole chain to the reference deflate model buffers its
coalesced content, leaving the output untouched. -/
theorem zlibDeflateSegs_ref (fuel : Nat) (segs : List Segment) (st : RefDeflState)
    (o : ZOut) (ho : o.availOut ≠ 0) (hsegs : o.segs ≠ []) :
    zlibDeflateSegs refDeflatePrim (fuel + 1) segs st o =
      .ok (⟨st.buffered ++ chainJoin segs, st.pending⟩, o) := by
  induction segs generalizing st with
  | nil =>
    rw [zlibDeflateSegs]
    cases st
    simp [chainJoin]
  | cons seg rest ih =>
    rw [zlibDeflateSegs]
    by_cases hseg : seg.isEmpty
    · have hnil : seg = [] := by simpa [List.isEmpty_iff] using hseg
      subst hnil
      rw [if_pos hseg, ih st]
      simp [chainJoin]
    · rw [if_neg (by simpa using hseg),
        zlibDeflateFeedLoop_ref fuel st seg o ho hsegs]
      dsimp only
      rw [ih ⟨st.buffered ++ seg, st.pending⟩]
      simp [chainJoin, List.append_assoc]

/-- The conditional buffer growth (`if (avail_out == 0) addOutputBuffer`)
always succeeds, preserves the written content and `total_out`, and
leaves non-exhausted output capacity. -/
theorem zlibAddIfNeeded (o : ZOut) (len : Nat) (hlen : len ≠ 0) (hsegs : o.segs ≠ []) :
    ∃ o1 : ZOut, (if o.availOut = 0 then o.addOutputBuffer len else .ok o) = .ok o1 ∧
      o1.segs.flatten = o.segs.flatten ∧ o1.totalOut = o.totalOut ∧
      o1.segs ≠ [] ∧ o1.availOut ≠ 0 := by
  by_cases ho : o.availOut = 0
  · exact ⟨⟨o.segs ++ [[]], len, o.totalOut⟩,
      by rw [if_pos ho, ZOut.addOutputBuffer_ok o len ho], by simp, rfl, by simp, hlen⟩
  · exact ⟨o, by rw [if_neg ho], rfl, rfl, hsegs, ho⟩

/-- The `Z_FINISH` drain loop of the reference deflate model emits the
entire still-pending encoded stream (the buffered input framed by the
end marker), growing output buffers as needed, and ends in
`Z_STREAM_END` with the pending tail empty. -/
theorem zlibDeflateFinishLoop_ref :
    ∀ (fuel : Nat) (st : RefDeflState) (o : ZOut),
    (st.pending.getD (st.buffered ++ [zlibStreamEndMarker])).length + 1 ≤ fuel →
    o.segs ≠ [] →
    ∃ o' : ZOut,
      zlibDeflateFinishLoop refDeflatePrim fuel st o =
        .ok (⟨st.buffered, some []⟩, o') ∧
      o'.segs.flatten =
        o.segs.flatten ++ st.pending.getD (st.buffered ++ [zlibStreamEndMarker]) ∧
      o'.totalOut =
        o.totalOut + (st.pending.getD (st.buffered ++ [zlibStreamEndMarker])).length ∧
      o'.segs ≠ [] := by
  intro fuel
  induction fuel with
  | zero => intro st o hfuel hsegs; exact absurd hfuel (by omega)
  | succ f ih =>
    intro st o hfuel hsegs
    obtain ⟨o1, heq, hflat, htot, hsegs1, havail⟩ :=
      zlibAddIfNeeded o defaultBufferLength (by decide) hsegs
    have hstep : refDeflatePrim.step st .zFinish [] o1.availOut =
        ⟨⟨st.buffered, some ((st.pending.getD (st.buffered ++ [zlibStreamEndMarker])).drop
            (min o1.availOut (st.pending.getD (st.buffered ++ [zlibStreamEndMarker])).length))⟩,
          0,
          (st.pending.getD (st.buffered ++ [zlibStreamEndMarker])).take
            (min o1.availOut (st.pending.getD (st.buffered ++ [zlibStreamEndMarker])).length),
          if ((st.pending.getD (st.buffered ++ [zlibStreamEndMarker])).drop
              (min o1.availOut
                (st.pending.getD (st.buffered ++ [zlibStreamEndMarker])).length)).isEmpty
          then .zStreamEnd else .zOk,
          ""⟩ := rfl
    rw [zlibDeflateFinishLoop.eq_def]
    dsimp only
    rw [heq]
    dsimp only
    rw [hstep]
    dsimp only
    by_cases hdone :
        ((st.pending.getD (st.buffered ++ [zlibStreamEndMarker])).drop
          (min o1.availOut
            (st.pending.getD (st.buffered ++ [zlibStreamEndMarker])).length)).isEmpty
    · rw [if_pos hdone]
      have h0 :
          (st.pending.getD (st.buffered ++ [zlibStreamEndMarker])).length -
            min o1.availOut
              (st.pending.getD (st.buffered ++ [zlibStreamEndMarker])).length = 0 := by
        have := congrArg List.length (List.isEmpty_iff.mp hdone)
        simpa using this
      have hk :
          min o1.availOut
              (st.pending.getD (st.buffered ++ [zlibStreamEndMarker])).length =
            (st.pending.getD (st.buffered ++ [zlibStreamEndMarker])).length := by
        omega
      refine ⟨o1.write
          ((st.pending.getD (st.buffered ++ [zlibStreamEndMarker])).take
            (min o1.availOut
              (st.pending.getD (st.buffered ++ [zlibStreamEndMarker])).length)),
        ?_, ?_, ?_, ?_⟩
      · rw [List.isEmpty_iff.mp hdone]
      · rw [ZOut.write_flatten, hflat, hk, List.take_length]
      · simp only [ZOut.write, List.length_take, htot]
        omega
      · exact ZOut.write_segs_ne_nil o1 _
    · rw [if_neg hdone]
      have h0 :
          (st.pending.getD (st.buffered ++ [zlibStreamEndMarker])).length -
            min o1.availOut
              (st.pending.getD (st.buffered ++ [zlibStreamEndMarker])).length ≠ 0 := by
        intro hc
        apply hdone
        rw [List.isEmpty_iff, List.drop_eq_nil_iff]
        omega
      obtain ⟨o'', heq'', hflat'', htot'', hsegs''⟩ :=
        ih ⟨st.buffered, some
            ((st.pending.getD (st.buffered ++ [zlibStreamEndMarker])).drop
              (min o1.availOut
                (st.pending.getD (st.buffered ++ [zlibStreamEndMarker])).length))⟩
          (o1.write
            ((st.pending.getD (st.buffered ++ [zlibStreamEndMarker])).take
              (min o1.availOut
                (st.pending.getD (st.buffered ++ [zlibStreamEndMarker])).length)))
          (by simp only [Option.getD_some]
              rw [List.length_drop]
              omega)
          (ZOut.write_segs_ne_nil o1 _)
      rw [heq'']
      refine ⟨o'', rfl, ?_, ?_, hsegs''⟩
      · rw [hflat'']
        simp only [Option.getD_some]
        rw [ZOut.write_flatten, hflat, List.append_assoc, List.take_append_drop]
      · rw [htot'']
        simp only [Option.getD_some, ZOut.write]
        rw [List.length_drop, List.length_take]
        omega

/-- `ZlibCodec::doCompress` with the reference deflate model produces a
chain whose byte content is the coalesced input framed by the
end-of-stream marker. -/
theorem zlibDoCompress_ref (data : ByteChain) (fuel : Nat)
    (hfuel : chainLength data + 2 ≤ fuel) :
    ∃ segs : List (List Nat),
      zlibDoCompress refDeflatePrim fuel data = .ok segs ∧
      segs.flatten = chainJoin data ++ [zlibStreamEndMarker] ∧ segs ≠ [] := by
  obtain ⟨f, rfl⟩ : ∃ f, fuel = f + 1 := ⟨fuel - 1, by omega⟩
  unfold zlibDoCompress
  rw [if_neg (by simp [refDeflatePrim])]
  have hbound : refDeflatePrim.deflateBound (chainLength data) =
      chainLength data + 1 := rfl
  have hinit : refDeflatePrim.initState = (⟨[], none⟩ : RefDeflState) := rfl
  dsimp only
  rw [hbound, hinit]
  rw [ZOut.addOutputBuffer_ok ⟨[], 0, 0⟩ _ rfl]
  dsimp only
  have hsize :
      (⟨[] ++ [[]],
        if chainLength data + 1 ≤ maxSingleStepLength then chainLength data + 1
        else defaultBufferLength, 0⟩ : ZOut).availOut ≠ 0 := by
    dsimp only
    split
    · omega
    · decide
  rw [zlibDeflateSegs_ref f data ⟨[], none⟩ _ hsize (by simp)]
  dsimp only
  obtain ⟨o', heq', hflat', htot', hsegs'⟩ :=
    zlibDeflateFinishLoop_ref (f + 1) ⟨[] ++ chainJoin data, none⟩
      ⟨[] ++ [[]],
        if chainLength data + 1 ≤ maxSingleStepLength then chainLength data + 1
        else defaultBufferLength, 0⟩
      (by simp only [Option.getD_none]
          rw [List.length_append, List.length_append, chainJoin_length]
          simp
          omega)
      (by simp)
  rw [heq']
  refine ⟨o'.segs, rfl, ?_, hsegs'⟩
  rw [hflat']
  simp

/-- One reference `inflate` call on marker-free input copies as many
bytes as output space allows and reports `Z_OK`. -/
theorem inflateScan_no_marker :
    ∀ (s : List Nat) (a : Nat), zlibStreamEndMarker ∉ s →
    inflateScan s a = (min a s.length, s.take (min a s.length), .zOk) := by
  intro s
  induction s with
  | nil => intro a h; simp [inflateScan]
  | cons b rest ih =>
    intro a h
    have hb : ¬ b = zlibStreamEndMarker := fun hc => h (by simp [hc])
    rw [inflateScan]
    rw [if_neg hb]
    cases a with
    | zero => simp
    | succ a' =>
      rw [if_neg (by omega)]
      simp only [Nat.add_sub_cancel]
      rw [ih a' (fun hc => h (List.mem_cons_of_mem b hc))]
      simp [Nat.succ_min_succ]

/-- One reference `inflate` call that exhausts output space strictly
inside the marker-free prefix consumes exactly the available space. -/
theorem inflateScan_partial :
    ∀ (x rest : List Nat) (a : Nat), zlibStreamEndMarker ∉ x → a < x.length →
    inflateScan (x ++ rest) a = (a, x.take a, .zOk) := by
  intro x
  induction x with
  | nil => intro rest a hm ha; simp at ha
  | cons b x' ih =>
    intro rest a hm ha
    have hb : ¬ b = zlibStreamEndMarker := fun hc => hm (by simp [hc])
    rw [List.cons_append, inflateScan, if_neg hb]
    cases a with
    | zero => simp
    | succ a' =>
      rw [if_neg (by omega)]
      simp only [Nat.add_sub_cancel]
      rw [ih rest a' (fun hc => hm (List.mem_cons_of_mem b hc)) (by simpa using ha)]
      simp

/-- One reference `inflate` call with enough output space to reach the
marker emits the marker-free prefix, consumes the marker, and reports
`Z_STREAM_END`. -/
theorem inflateScan_marker :
    ∀ (x y : List Nat) (a : Nat), zlibStreamEndMarker ∉ x → x.length ≤ a →
    inflateScan (x ++ zlibStreamEndMarker :: y) a = (x.length + 1, x, .zStreamEnd) := by
  intro x
  induction x with
  | nil =>
    intro y a hm ha
    rw [List.nil_append, inflateScan, if_pos rfl]
    simp
  | cons b x' ih =>
    intro y a hm ha
    have hb : ¬ b = zlibStreamEndMarker := fun hc => hm (by simp [hc])
    rw [List.cons_append, inflateScan, if_neg hb]
    obtain ⟨a', rfl⟩ : ∃ a', a = a' + 1 := ⟨a - 1, by simp at ha; omega⟩
    rw [if_neg (by omega)]
    simp only [Nat.add_sub_cancel]
    rw [ih y a' (fun hc => hm (List.mem_cons_of_mem b hc)) (by simp at ha; omega)]
    simp

/-- Evaluation of `ZlibCodec::doInflate` under the reference inflate
model: output capacity is grown if needed (preserving written content),
then one `inflateScan` step decides the outcome. -/
theorem zlibDoInflate_ref (availIn : List Nat) (o : ZOut) (hsegs : o.segs ≠ []) :
    ∃ o1 : ZOut,
      o1.segs.flatten = o.segs.flatten ∧ o1.totalOut = o.totalOut ∧
      o1.segs ≠ [] ∧ o1.availOut ≠ 0 ∧
      ((inflateScan availIn o1.availOut).2.2 = .zOk →
        zlibDoInflate refInflatePrim () availIn o defaultBufferLength =
          .ok ((), availIn.drop (inflateScan availIn o1.availOut).1,
            o1.write (inflateScan availIn o1.availOut).2.1, false)) ∧
      ((inflateScan availIn o1.availOut).2.2 = .zStreamEnd →
        zlibDoInflate refInflatePrim () availIn o defaultBufferLength =
          .ok ((), availIn.drop (inflateScan availIn o1.availOut).1,
            o1.write (inflateScan availIn o1.availOut).2.1, true)) := by
  obtain ⟨o1, heq, hflat, htot, hsegs1, havail⟩ :=
    zlibAddIfNeeded o defaultBufferLength (by decide) hsegs
  have hstep : refInflatePrim.step () availIn o1.availOut =
      ⟨(), (inflateScan availIn o1.availOut).1,
        (inflateScan availIn o1.availOut).2.1,
        (inflateScan availIn o1.availOut).2.2, ""⟩ := rfl
  refine ⟨o1, hflat, htot, hsegs1, havail, ?_, ?_⟩ <;> intro hrc <;>
    (unfold zlibDoInflate
     rw [heq]
     dsimp only
     rw [hstep]
     dsimp only
     rw [hrc])

/-- The inner avail_in loop of `ZlibCodec::doUncompress` under the
reference model, fed a marker-free segment: the whole segment is
consumed and written out (across as many output buffers as needed), and
the stream is still incomplete. -/
theorem zlibInflateAvailLoop_ref_nomark :
    ∀ (fuel : Nat) (seg : List Nat) (o : ZOut),
    zlibStreamEndMarker ∉ seg → seg.length ≤ fuel → o.segs ≠ [] →
    ∃ o' : ZOut,
      zlibInflateAvailLoop refInflatePrim defaultBufferLength fuel () false seg o =
        .ok ((), false, o') ∧
      o'.segs.flatten = o.segs.flatten ++ seg ∧
      o'.totalOut = o.totalOut + seg.length ∧ o'.segs ≠ [] := by
  intro fuel
  induction fuel with
  | zero =>
    intro seg o hm hl hsegs
    have hnil : seg = [] := List.eq_nil_of_length_eq_zero (by omega)
    subst hnil
    refine ⟨o, ?_, by simp, by simp, hsegs⟩
    rw [zlibInflateAvailLoop.eq_def]
    simp
  | succ f ih =>
    intro seg o hm hl hsegs
    cases seg with
    | nil =>
      refine ⟨o, ?_, by simp, by simp, hsegs⟩
      rw [zlibInflateAvailLoop.eq_def]
      simp
    | cons b t =>
      obtain ⟨o1, hflat, htot, hsegs1, havail, hok, _⟩ :=
        zlibDoInflate_ref (b :: t) o hsegs
      have hscan : inflateScan (b :: t) o1.availOut =
          (min o1.availOut (b :: t).length,
            (b :: t).take (min o1.availOut (b :: t).length), .zOk) :=
        inflateScan_no_marker (b :: t) o1.availOut hm
      rw [zlibInflateAvailLoop.eq_def]
      dsimp only
      simp only [List.isEmpty_cons, Bool.false_eq_true, if_false]
      rw [hok (by rw [hscan]), hscan]
      dsimp only
      have hlen : (b :: t).length = t.length + 1 := by simp
      have hk1 : 1 ≤ min o1.availOut (b :: t).length := by
        rw [hlen]
        omega
      obtain ⟨o'', heq'', hflat'', htot'', hsegs''⟩ :=
        ih ((b :: t).drop (min o1.availOut (b :: t).length))
          (o1.write ((b :: t).take (min o1.availOut (b :: t).length)))
          (fun hc => hm (List.drop_subset _ _ hc))
          (by rw [List.length_drop]; omega)
          (ZOut.write_segs_ne_nil o1 _)
      rw [heq'']
      refine ⟨o'', rfl, ?_, ?_, hsegs''⟩
      · rw [hflat'', ZOut.write_flatten, hflat, List.append_assoc,
          List.take_append_drop]
      · rw [htot'']
        simp only [ZOut.write, List.length_take, List.length_drop]
        rw [htot]
        omega

/-- The inner avail_in loop of `ZlibCodec::doUncompress` under the
reference model, fed a segment that ends with the stream-end marker:
the marker-free prefix is written out, the marker is consumed, and the
loop reports stream completion. -/
theorem zlibInflateAvailLoop_ref_marker :
    ∀ (fuel : Nat) (x : List Nat) (o : ZOut),
    zlibStreamEndMarker ∉ x → x.length + 1 ≤ fuel → o.segs ≠ [] →
    ∃ o' : ZOut,
      zlibInflateAvailLoop refInflatePrim defaultBufferLength fuel () false
          (x ++ [zlibStreamEndMarker]) o =
        .ok ((), true, o') ∧
      o'.segs.flatten = o.segs.flatten ++ x ∧
      o'.totalOut = o.totalOut + x.length ∧ o'.segs ≠ [] := by
  intro fuel
  induction fuel with
  | zero => intro x o hm hfl hsegs; exact absurd hfl (by omega)
  | succ f ih =>
    intro x o hm hfl hsegs
    obtain ⟨o1, hflat, htot, hsegs1, havail, hok, hend⟩ :=
      zlibDoInflate_ref (x ++ [zlibStreamEndMarker]) o hsegs
    have hne : (x ++ [zlibStreamEndMarker]).isEmpty = false := by
      simp
    rw [zlibInflateAvailLoop.eq_def]
    dsimp only
    simp only [hne, Bool.false_eq_true, if_false]
    by_cases hcase : x.length ≤ o1.availOut
    · have hscan : inflateScan (x ++ [zlibStreamEndMarker]) o1.availOut =
          (x.length + 1, x, .zStreamEnd) :=
        inflateScan_marker x [] o1.availOut hm hcase
      rw [hend (by rw [hscan]), hscan]
      dsimp only
      have hdrop : (x ++ [zlibStreamEndMarker]).drop (x.length + 1) = [] := by
        rw [show x.length + 1 = (x ++ [zlibStreamEndMarker]).length by simp]
        exact List.drop_length _
      rw [hdrop]
      refine ⟨o1.write x, ?_, ?_, ?_, ZOut.write_segs_ne_nil o1 _⟩
      · rw [zlibInflateAvailLoop.eq_def]
        simp
      · rw [ZOut.write_flatten, hflat]
      · simp only [ZOut.write]
        rw [htot]
    · push_neg at hcase
      have hscan : inflateScan (x ++ [zlibStreamEndMarker]) o1.availOut =
          (o1.availOut, x.take o1.availOut, .zOk) :=
        inflateScan_partial x [zlibStreamEndMarker] o1.availOut hm hcase
      rw [hok (by rw [hscan]), hscan]
      dsimp only
      have hdrop : (x ++ [zlibStreamEndMarker]).drop o1.availOut =
          x.drop o1.availOut ++ [zlibStreamEndMarker] :=
        List.drop_append_of_le_length (by omega)
      rw [hdrop]
      obtain ⟨o'', heq'', hflat'', htot'', hsegs''⟩ :=
        ih (x.drop o1.availOut) (o1.write (x.take o1.availOut))
          (fun hc => hm (List.drop_subset _ _ hc))
          (by rw [List.length_drop]; omega)
          (ZOut.write_segs_ne_nil o1 _)
      rw [heq'']
      refine ⟨o'', rfl, ?_, ?_, hsegs''⟩
      · rw [hflat'', ZOut.write_flatten, hflat, List.append_assoc,
          List.take_append_drop]
      · rw [htot'']
        simp only [ZOut.write, List.length_take, List.length_drop]
        rw [htot]
        omega

/-- The chain length of a cons. -/
theorem chainLength_cons (h : Segment) (t : ByteChain) :
    chainLength (h :: t) = h.length + chainLength t := by
  simp [chainLength]

/-- The segment loop of `ZlibCodec::doUncompress` under the reference
model, fed a chain whose coalesced content is a marker-free payload
followed by the end marker: the payload is written out, the marker is
consumed, stream completion is reported, and trailing empty segments
are tolerated. -/
theorem zlibInflateSegs_ref :
    ∀ (segs : List Segment) (P : List Nat) (fuel : Nat) (o : ZOut),
    chainJoin segs = P ++ [zlibStreamEndMarker] → zlibStreamEndMarker ∉ P →
    chainLength segs + 1 ≤ fuel → o.segs ≠ [] →
    ∃ o' : ZOut,
      zlibInflateSegs refInflatePrim defaultBufferLength fuel segs () false o =
        .ok ((), true, o') ∧
      o'.segs.flatten = o.segs.flatten ++ P ∧
      o'.totalOut = o.totalOut + P.length ∧ o'.segs ≠ [] := by
  intro segs
  induction segs with
  | nil =>
    intro P fuel o hjoin hm hfuel hsegs
    rw [show chainJoin ([] : List Segment) = [] from rfl] at hjoin
    exact absurd hjoin.symm (by simp)
  | cons h t ih =>
    intro P fuel o hjoin hm hfuel hsegs
    have hjoin' : h ++ chainJoin t = P ++ [zlibStreamEndMarker] := by
      simpa [chainJoin] using hjoin
    have hcl : chainLength (h :: t) = h.length + chainLength t :=
      chainLength_cons h t
    rw [zlibInflateSegs]
    by_cases hemp : h.isEmpty
    · have hnil : h = [] := List.isEmpty_iff.mp hemp
      subst hnil
      rw [if_pos hemp]
      exact ih P fuel o (by simpa [chainJoin] using hjoin') hm
        (by rw [hcl] at hfuel; simpa using hfuel) hsegs
    · rw [if_neg (by simpa using hemp)]
      by_cases hle : h.length ≤ P.length
      · have htake : h = P.take h.length := by
          have h1 : (h ++ chainJoin t).take h.length = h := List.take_left h _
          rw [hjoin', List.take_append_of_le_length hle] at h1
          exact h1.symm
        have hP : P = h ++ P.drop h.length := by
          conv_lhs => rw [← List.take_append_drop h.length P, ← htake]
        have hmh : zlibStreamEndMarker ∉ h := fun hc =>
          hm (hP ▸ List.mem_append_left _ hc)
        have hjt : chainJoin t = P.drop h.length ++ [zlibStreamEndMarker] := by
          have hstep : h ++ chainJoin t =
              h ++ (P.drop h.length ++ [zlibStreamEndMarker]) := by
            rw [hjoin']
            conv_lhs => rw [hP]
            rw [List.append_assoc]
          exact List.append_cancel_left hstep
        obtain ⟨o1, heq1, hflat1, htot1, hsegs1⟩ :=
          zlibInflateAvailLoop_ref_nomark fuel h o hmh
            (by rw [hcl] at hfuel; omega) hsegs
        rw [heq1]
        dsimp only
        obtain ⟨o'', heq'', hflat'', htot'', hsegs''⟩ :=
          ih (P.drop h.length) fuel o1 hjt
            (fun hc => hm (List.drop_subset _ _ hc))
            (by rw [hcl] at hfuel; omega) hsegs1
        rw [heq'']
        refine ⟨o'', rfl, ?_, ?_, hsegs''⟩
        · rw [hflat'', hflat1, List.append_assoc]
          conv_rhs => rw [hP]
        · rw [htot'', htot1]
          simp only [List.length_drop]
          omega
      · push_neg at hle
        have hlensum := congrArg List.length hjoin'
        simp only [List.length_append, List.length_cons, List.length_nil] at hlensum
        have hlen' : h.length = P.length + 1 := by omega
        have hhp : h = P ++ [zlibStreamEndMarker] := by
          have h1 : (h ++ chainJoin t).take h.length = h := List.take_left h _
          rw [hjoin', hlen'] at h1
          rw [List.take_of_length_le (by simp)] at h1
          exact h1.symm
        have hjt : chainJoin t = [] := by
          apply List.eq_nil_of_length_eq_zero
          omega
        obtain ⟨o1, heq1, hflat1, htot1, hsegs1⟩ :=
          zlibInflateAvailLoop_ref_marker fuel P o hm
            (by rw [hcl] at hfuel; omega) hsegs
        rw [hhp, heq1]
        dsimp only
        rw [zlibInflateSegs_streamEnd refInflatePrim defaultBufferLength fuel t () o1]
        rw [if_pos (by
          simp only [List.all_eq_true]
          intro s hs
          have := (List.flatten_eq_nil_iff).mp hjt
          simp [List.isEmpty_iff]
          exact this s hs)]
        exact ⟨o1, rfl, hflat1, htot1, hsegs1⟩

/-- The drain loop of `ZlibCodec::doUncompress` exits immediately once
the stream has completed. -/
theorem zlibInflateDrain_streamEnd {S : Type} (prim : ZlibInflatePrim S)
    (bufferLength fuel : Nat) (st : S) (o : ZOut) :
    zlibInflateDrain prim bufferLength fuel st true o = .ok (st, o) := by
  rw [zlibInflateDrain.eq_def]
  simp

/-- `ZlibCodec::doUncompress` with the reference inflate model, on input
whose content is a marker-framed payload, returns a chain holding
exactly the payload, for a declared length equal to the payload length
or Unknown. -/
theorem zlibDoUncompress_ref (c : ByteChain) (P : List Nat) (fuel ul : Nat)
    (hjoin : chainJoin c = P ++ [zlibStreamEndMarker])
    (hm : zlibStreamEndMarker ∉ P)
    (hfuel : chainLength c + 1 ≤ fuel)
    (hul : ul = P.length ∨ ul = UNKNOWN_UNCOMPRESSED_LENGTH) :
    ∃ segs : List (List Nat),
      zlibDoUncompress refInflatePrim fuel c ul = .ok segs ∧
      segs.flatten = P := by
  unfold zlibDoUncompress
  rw [if_neg (by simp [refInflatePrim])]
  rw [ZOut.addOutputBuffer_ok ⟨[], 0, 0⟩ _ rfl]
  dsimp only
  have hinit : refInflatePrim.initState = () := rfl
  rw [hinit]
  obtain ⟨o', heq', hflat', htot', hsegs'⟩ :=
    zlibInflateSegs_ref c P fuel
      ⟨[] ++ [[]],
        if ul ≠ UNKNOWN_UNCOMPRESSED_LENGTH ∧ ul ≤ maxSingleStepLength then ul
        else defaultBufferLength, 0⟩
      hjoin hm hfuel (by simp)
  rw [heq']
  dsimp only
  rw [zlibInflateDrain_streamEnd]
  dsimp only
  have htot'' : o'.totalOut = P.length := by
    rw [htot']
    simp
  have hflat'' : o'.segs.flatten = P := by
    rw [hflat']
    simp
  rcases hul with rfl | rfl
  · rw [if_neg (by
      intro hcon
      exact hcon.2 htot''.symm)]
    exact ⟨o'.segs, rfl, hflat''⟩
  · rw [if_neg (by
      intro hcon
      exact hcon.1 rfl)]
    exact ⟨o'.segs, rfl, hflat''⟩

/-- C4 counterexample: the claim quantifies over every non-empty byte
sequence, but for the LZ4 variant a sequence longer than its
`maxUncompressedLength()` of 1932735283 bytes compresses fine and then
fails the ceiling check on uncompress, so the round trip does not
return the input. -/
theorem c4_counterexample :
    lz4Compress lz4TrivExt false [List.replicate 1932735284 0] =
      .ok [List.replicate 1932735284 0] ∧
    lz4Uncompress lz4TrivExt [List.replicate 1932735284 0]
        (chainLength [List.replicate 1932735284 0]) =
      .error (.runtimeError "Codec: uncompressed length too large") := by
  have hlen : chainLength [List.replicate 1932735284 (0 : Nat)] = 1932735284 := by
    unfold chainLength
    rw [List.map_cons, List.map_nil, List.sum_cons, List.sum_nil,
      List.length_replicate]
    rfl
  have hj : chainJoin [List.replicate 1932735284 (0 : Nat)] =
      List.replicate 1932735284 (0 : Nat) := by
    unfold chainJoin
    rw [List.flatten_cons, List.flatten_nil, List.append_nil]
  constructor
  · unfold lz4Compress codecCompress
    rw [if_pos (by rw [hlen]; omega)]
    unfold lz4DoCompress
    rw [if_neg (by decide)]
    unfold lz4DoCompressWith
    dsimp only
    rw [hj]
    have hHC : lz4TrivExt.lz4CompressHC = id := rfl
    have hBo : lz4TrivExt.lz4CompressBound = id := rfl
    rw [hHC, hBo]
    rw [id_eq, id_eq]
    rw [if_pos (le_refl _)]
  · unfold lz4Uncompress codecUncompress
    rw [hlen]
    rw [if_neg (by decide), if_pos (by decide)]

/-- The chain length of a single-segment chain. -/
theorem chainLength_single (x : List Nat) : chainLength [x] = x.length := by
  simp [chainLength]

/-- The content of a single-segment chain. -/
theorem chainJoin_single (x : List Nat) : chainJoin [x] = x := by
  simp [chainJoin]

/-- C4 (amended): for every non-empty byte chain and every codec
variant, whenever the chain's total length does not exceed *that
variant's own* `maxUncompressedLength()` (and, for the external
primitives, under their documented call contracts — stated as
hypotheses of the variant's conjunct for LZ4 and Snappy, and discharged
by a concrete contract-satisfying model for zlib),
`uncompress(compress(B), len(B))` returns the bytes of B; and
`uncompress(compress(B), Unknown)` returns the bytes of B for every
variant whose `needsUncompressedLength()` is false (no-op, Snappy,
zlib).  Each conjunct carries only its own variant's ceiling bound, so
e.g. the no-op, Snappy and zlib round trips cover inputs far beyond the
LZ4 ceiling. -/
theorem c4_roundtrip_amended (data : ByteChain) (hd : chainLength data ≠ 0) :
    (chainLength data ≤ baseMaxUncompressedLength →
      thenUncompress (nocompCompress data) nocompUncompress (chainLength data) =
        .ok (chainJoin data)) ∧
    thenUncompress (nocompCompress data) nocompUncompress
        UNKNOWN_UNCOMPRESSED_LENGTH = .ok (chainJoin data) ∧
    (∀ (lext : LZ4Ext) (hc : Bool),
      chainLength data ≤ lz4MaxUncompressedLength →
      (lext.lz4Compress (chainJoin data)).length ≤
        lext.lz4CompressBound (chainJoin data).length →
      (lext.lz4CompressHC (chainJoin data)).length ≤
        lext.lz4CompressBound (chainJoin data).length →
      lext.lz4Compress (chainJoin data) ≠ [] →
      lext.lz4CompressHC (chainJoin data) ≠ [] →
      lext.lz4Uncompress (lext.lz4Compress (chainJoin data)) (chainLength data) =
        (((lext.lz4Compress (chainJoin data)).length : Int), chainJoin data) →
      lext.lz4Uncompress (lext.lz4CompressHC (chainJoin data)) (chainLength data) =
        (((lext.lz4CompressHC (chainJoin data)).length : Int), chainJoin data) →
      thenUncompress (lz4Compress lext hc data) (lz4Uncompress lext)
        (chainLength data) = .ok (chainJoin data)) ∧
    (∀ sext : SnappyExt,
      chainLength data ≤ snappyMaxUncompressedLength →
      (sext.compressPrim (mkSnappySource data)).length ≤
        sext.maxCompressedLength (mkSnappySource data).available →
      sext.compressPrim (mkSnappySource data) ≠ [] →
      sext.getUncompressedLength
          (mkSnappySource [sext.compressPrim (mkSnappySource data)]) =
        some (chainLength data) →
      sext.rawUncompress (mkSnappySource [sext.compressPrim (mkSnappySource data)])
          (chainLength data) =
        some (chainJoin data) →
      thenUncompress (snappyCompress sext data) (snappyUncompress sext)
        (chainLength data) = .ok (chainJoin data)) ∧
    (∀ sext : SnappyExt,
      (sext.compressPrim (mkSnappySource data)).length ≤
        sext.maxCompressedLength (mkSnappySource data).available →
      sext.compressPrim (mkSnappySource data) ≠ [] →
      sext.getUncompressedLength
          (mkSnappySource [sext.compressPrim (mkSnappySource data)]) =
        some (chainLength data) →
      sext.rawUncompress (mkSnappySource [sext.compressPrim (mkSnappySource data)])
          (chainLength data) =
        some (chainJoin data) →
      thenUncompress (snappyCompress sext data) (snappyUncompress sext)
        UNKNOWN_UNCOMPRESSED_LENGTH = .ok (chainJoin data)) ∧
    (∀ fuel : Nat,
      chainLength data + 3 ≤ fuel →
      zlibStreamEndMarker ∉ chainJoin data →
      chainLength data ≤ baseMaxUncompressedLength →
      thenUncompress (zlibCompress refDeflatePrim fuel data)
          (zlibUncompress refInflatePrim fuel) (chainLength data) =
        .ok (chainJoin data)) ∧
    (∀ fuel : Nat,
      chainLength data + 3 ≤ fuel →
      zlibStreamEndMarker ∉ chainJoin data →
      thenUncompress (zlibCompress refDeflatePrim fuel data)
          (zlibUncompress refInflatePrim fuel) UNKNOWN_UNCOMPRESSED_LENGTH =
        .ok (chainJoin data)) := by
  refine ⟨?_, ?_, ?_, ?_, ?_, ?_, ?_⟩
  · intro hblen
    have hdU : chainLength data ≠ UNKNOWN_UNCOMPRESSED_LENGTH := by
      unfold UNKNOWN_UNCOMPRESSED_LENGTH
      unfold baseMaxUncompressedLength at hblen
      omega
    have hdmaxB : ¬ chainLength data > baseMaxUncompressedLength := by omega
    unfold thenUncompress nocompCompress codecCompress
    rw [if_pos hd]
    unfold nocompDoCompress
    dsimp only
    unfold nocompUncompress codecUncompress
    rw [if_neg hdU, if_neg hdmaxB]
    unfold codecUncompress.codecUncompressAfterChecks
    rw [if_neg hd]
    unfold nocompDoUncompress
    rw [if_neg (by intro hcon; exact hcon.2 rfl)]
    rfl
  · unfold thenUncompress nocompCompress codecCompress
    rw [if_pos hd]
    unfold nocompDoCompress
    dsimp only
    unfold nocompUncompress codecUncompress
    rw [if_pos rfl]
    simp only [Bool.false_eq_true, if_false]
    unfold codecUncompress.codecUncompressAfterChecks
    rw [if_neg hd]
    unfold nocompDoUncompress
    rw [if_neg (by intro hcon; exact hcon.1 rfl)]
    rfl
  · intro lext hc hlz4len hlc1 hlc2 hlne1 hlne2 hlu1 hlu2
    have hdU : chainLength data ≠ UNKNOWN_UNCOMPRESSED_LENGTH := by
      unfold UNKNOWN_UNCOMPRESSED_LENGTH
      unfold lz4MaxUncompressedLength at hlz4len
      omega
    have hdmaxL : ¬ chainLength data > lz4MaxUncompressedLength := by omega
    unfold thenUncompress lz4Compress codecCompress
    rw [if_pos hd]
    unfold lz4DoCompress
    cases hc with
    | false =>
      rw [if_neg (by decide)]
      unfold lz4DoCompressWith
      dsimp only
      rw [if_pos hlc2]
      dsimp only
      unfold lz4Uncompress codecUncompress
      rw [if_neg hdU, if_neg hdmaxL]
      unfold codecUncompress.codecUncompressAfterChecks
      rw [if_neg (by
        rw [chainLength_single]
        exact fun h => hlne2 (List.eq_nil_of_length_eq_zero h))]
      unfold lz4DoUncompress
      dsimp only
      rw [chainJoin_single, hlu2]
      dsimp only
      rw [if_neg (by intro hcon; exact hcon rfl)]
      dsimp only [Except.map]
      rw [chainJoin_single]
    | true =>
      rw [if_pos rfl]
      unfold lz4DoCompressWith
      dsimp only
      rw [if_pos hlc1]
      dsimp only
      unfold lz4Uncompress codecUncompress
      rw [if_neg hdU, if_neg hdmaxL]
      unfold codecUncompress.codecUncompressAfterChecks
      rw [if_neg (by
        rw [chainLength_single]
        exact fun h => hlne1 (List.eq_nil_of_length_eq_zero h))]
      unfold lz4DoUncompress
      dsimp only
      rw [chainJoin_single, hlu1]
      dsimp only
      rw [if_neg (by intro hcon; exact hcon rfl)]
      dsimp only [Except.map]
      rw [chainJoin_single]
  · intro sext hslen hsb hsne hsg hsr
    have hdU : chainLength data ≠ UNKNOWN_UNCOMPRESSED_LENGTH := by
      unfold UNKNOWN_UNCOMPRESSED_LENGTH
      unfold snappyMaxUncompressedLength at hslen
      omega
    have hdmaxS : ¬ chainLength data > snappyMaxUncompressedLength := by omega
    unfold thenUncompress snappyCompress codecCompress
    rw [if_pos hd]
    unfold snappyDoCompress
    dsimp only
    rw [if_pos hsb]
    dsimp only
    unfold snappyUncompress codecUncompress
    rw [if_neg hdU, if_neg hdmaxS]
    unfold codecUncompress.codecUncompressAfterChecks
    rw [if_neg (by
      rw [chainLength_single]
      exact fun h => hsne (List.eq_nil_of_length_eq_zero h))]
    unfold snappyDoUncompress
    rw [hsg]
    dsimp only
    rw [if_neg (by intro hcon; exact hcon.2 rfl)]
    rw [hsr]
    dsimp only [Except.map]
    rw [chainJoin_single]
  · intro sext hsb hsne hsg hsr
    unfold thenUncompress snappyCompress codecCompress
    rw [if_pos hd]
    unfold snappyDoCompress
    dsimp only
    rw [if_pos hsb]
    dsimp only
    unfold snappyUncompress codecUncompress
    rw [if_pos rfl]
    simp only [Bool.false_eq_true, if_false]
    unfold codecUncompress.codecUncompressAfterChecks
    rw [if_neg (by
      rw [chainLength_single]
      exact fun h => hsne (List.eq_nil_of_length_eq_zero h))]
    unfold snappyDoUncompress
    rw [hsg]
    dsimp only
    rw [if_neg (by intro hcon; exact hcon.1 rfl)]
    rw [hsr]
    dsimp only [Except.map]
    rw [chainJoin_single]
  · intro fuel hfuel hmark hblen
    have hdU : chainLength data ≠ UNKNOWN_UNCOMPRESSED_LENGTH := by
      unfold UNKNOWN_UNCOMPRESSED_LENGTH
      unfold baseMaxUncompressedLength at hblen
      omega
    have hdmaxB : ¬ chainLength data > baseMaxUncompressedLength := by omega
    unfold thenUncompress zlibCompress codecCompress
    rw [if_pos hd]
    obtain ⟨csegs, hceq, hcflat, hcne⟩ := zlibDoCompress_ref data fuel (by omega)
    rw [hceq]
    dsimp only
    have hclen : chainLength csegs = chainLength data + 1 := by
      rw [← chainJoin_length]
      unfold chainJoin
      rw [hcflat]
      simp only [List.length_append, List.length_cons, List.length_nil]
      rw [chainJoin_length]
    unfold zlibUncompress codecUncompress
    rw [if_neg hdU, if_neg hdmaxB]
    unfold codecUncompress.codecUncompressAfterChecks
    rw [if_neg (by omega)]
    obtain ⟨usegs, hueq, huflat⟩ :=
      zlibDoUncompress_ref csegs (chainJoin data) fuel (chainLength data)
        (by unfold chainJoin; exact hcflat) hmark (by omega)
        (Or.inl (chainJoin_length data).symm)
    rw [hueq]
    dsimp only [Except.map]
    unfold chainJoin
    rw [huflat]
    rfl
  · intro fuel hfuel hmark
    unfold thenUncompress zlibCompress codecCompress
    rw [if_pos hd]
    obtain ⟨csegs, hceq, hcflat, hcne⟩ := zlibDoCompress_ref data fuel (by omega)
    rw [hceq]
    dsimp only
    have hclen : chainLength csegs = chainLength data + 1 := by
      rw [← chainJoin_length]
      unfold chainJoin
      rw [hcflat]
      simp only [List.length_append, List.length_cons, List.length_nil]
      rw [chainJoin_length]
    unfold zlibUncompress codecUncompress
    rw [if_pos rfl]
    simp only [Bool.false_eq_true, if_false]
    unfold codecUncompress.codecUncompressAfterChecks
    rw [if_neg (by omega)]
    obtain ⟨usegs, hueq, huflat⟩ :=
      zlibDoUncompress_ref csegs (chainJoin data) fuel UNKNOWN_UNCOMPRESSED_LENGTH
        (by unfold chainJoin; exact hcflat) hmark (by omega) (Or.inr rfl)
    rw [hueq]
    dsimp only [Except.map]
    unfold chainJoin
    rw [huflat]
    rfl

/-- Witness for C4 (amended) on the concrete chain [[7, 8]]: the no-op,
LZ4, Snappy and zlib known-length round trips, with every ceiling bound
and primitive-contract hypothesis discharged on the concrete models. -/
theorem c4_roundtrip_amended_witness :
    thenUncompress (nocompCompress [[7, 8]]) nocompUncompress
        (chainLength [[7, 8]]) = .ok (chainJoin [[7, 8]]) ∧
    thenUncompress (lz4Compress lz4TrivExt false [[7, 8]])
        (lz4Uncompress lz4TrivExt) (chainLength [[7, 8]]) =
      .ok (chainJoin [[7, 8]]) ∧
    thenUncompress (snappyCompress snappyTrivExt [[7, 8]])
        (snappyUncompress snappyTrivExt) (chainLength [[7, 8]]) =
      .ok (chainJoin [[7, 8]]) ∧
    thenUncompress (zlibCompress refDeflatePrim 10 [[7, 8]])
        (zlibUncompress refInflatePrim 10) (chainLength [[7, 8]]) =
      .ok (chainJoin [[7, 8]]) :=
  ⟨(c4_roundtrip_amended [[7, 8]] (by decide)).1 (by decide),
   (c4_roundtrip_amended [[7, 8]] (by decide)).2.2.1 lz4TrivExt false (by decide)
     (by decide) (by decide) (by decide) (by decide) (by decide) (by decide),
   (c4_roundtrip_amended [[7, 8]] (by decide)).2.2.2.1 snappyTrivExt (by decide)
     (by decide) (by decide) (by decide) (by decide),
   (c4_roundtrip_amended [[7, 8]] (by decide)).2.2.2.2.2.1 10 (by decide)
     (by decide) (by decide)⟩
